import Mathlib

/-! Pair data helpers of the exchange analytics dashboard.

A shallow embedding of `src/sushi-hooks/contexts/PairData.js`:

* `getPairChartData`: paginated fetch of the daily snapshots of a pair, gap filling and sort;
* `getHourlyRateData`: the open/close formatting of the hourly rate samples;
* `parseData` and `getBulkPairData`: enrichment of the pair records.

JavaScript numbers that hold times and dates are integers here (exact below `2 ^ 53`).
Floating point figures (volumes, reserves, prices) are values of an arbitrary type `Num`:
the code only parses them, copies them and hands them to helpers, and nothing below depends
on how they are represented.  Collaborators that live outside the file (the query client,
`dayjs`, the helpers of `utils`) are parameters.
-/

namespace PairData

/-! ## Values -/

/-- Numeric field of a record: the numeric string the API delivers, or a number. -/
inductive Field (Num : Type) where
  | str (s : String)
  | num (x : Num)
deriving DecidableEq, Repr

/-- JavaScript `parseFloat`. The argument is converted to a string first; `parse` is the
reading of a string, and a number is read back from its own decimal string unchanged
(the sign of a zero apart). -/
def parseFloat {Num : Type} (parse : String → Num) : Field Num → Num
  | .str s => parse s
  | .num x => x

/-! ## `getPairChartData` -/

/-- Seconds in a day: `const oneDay = 24 * 60 * 60`. -/
abbrev oneDay : Int := 24 * 60 * 60

/-- One element of the `data` array of `getPairChartData`: a `pairDayDatas` row of the
`PAIR_CHART` query, or an entry pushed by the gap filling loop (only those carry
`dayString`). -/
structure DayData (Num : Type) where
  date : Int
  dayString : Option Int
  dailyVolumeUSD : Field Num
  reserveUSD : Field Num
deriving DecidableEq, Repr

/-- The string `x.toFixed(0)`: a minus sign when `x < 0`, then the digits of the magnitude
rounded to the nearest integer, halves upwards. `(-0.2).toFixed(0)` is `"-0"`, which is
not the string `"0"`. -/
structure DayKey where
  minus : Bool
  digits : Nat
deriving DecidableEq, Repr

/-- The key `(date / oneDay).toFixed(0)` of a timestamp. -/
def dayIndex (date : Int) : DayKey :=
  if date < 0 then ⟨true, (2 * date.natAbs + 86400) / 172800⟩
  else ⟨false, (2 * date.natAbs + 86400) / 172800⟩

/-- Outcome of the page loop (lines 230-246). -/
inductive FetchResult (Num : Type) where
  /-- the loop left normally: `allFound` became true -/
  | done (data : List (DayData Num)) (skips : List Nat)
  /-- a query was rejected (or its result had no rows): control went to the `catch` -/
  | failed (data : List (DayData Num)) (skips : List Nat)
  /-- the loop is still running when the fuel is spent -/
  | running
deriving DecidableEq, Repr

/-- The `while (!allFound)` loop. `query skip` is
`client.query(PAIR_CHART, pairAddress, skip)`, `none` when the call fails; `skips` records
the `skip` of every query issued. -/
def fetchPages {Num : Type} (query : Nat → Option (List (DayData Num))) :
    Nat → Nat → List (DayData Num) → List Nat → FetchResult Num
  | 0, _, _, _ => .running
  | fuel + 1, skip, data, skips =>
    match query skip with
    | none => .failed data (skips ++ [skip])
    | some pairDayDatas =>
      if pairDayDatas.length < 1000 then
        .done (data ++ pairDayDatas) (skips ++ [skip])
      else
        fetchPages query fuel (skip + 1000) (data ++ pairDayDatas) (skips ++ [skip])

/-- The body of `data.forEach`: both figures of the row are replaced by their
`parseFloat`. -/
def parseRow {Num : Type} (parse : String → Num) (dayData : DayData Num) : DayData Num :=
  { dayData with
    dailyVolumeUSD := .num (parseFloat parse dayData.dailyVolumeUSD)
    reserveUSD := .num (parseFloat parse dayData.reserveUSD) }

/-- Variables of the gap filling loop; `reads` records every index at which
`dayIndexArray` was read. -/
structure FillState (Num : Type) where
  timestamp : Int
  latestLiquidityUSD : Field Num
  index : Nat
  data : List (DayData Num)
  reads : List Nat
deriving DecidableEq, Repr

/-- Outcome of the gap filling loop. -/
inductive FillResult (Num : Type) where
  /-- the loop condition became false -/
  | done (s : FillState Num)
  /-- the element `dayIndexArray[index]` was `undefined` and reading its `reserveUSD`
  threw -/
  | threw (s : FillState Num)
  /-- the loop is still running when the fuel is spent -/
  | running
deriving DecidableEq, Repr

/-- The loop `while (timestamp < utcEndTime.unix() - oneDay)` (lines 264-279);
`zero` is the number `0`. -/
def fillLoop {Num : Type} (zero : Num) (utcEndTime : Int) (dayIndexSet : List DayKey)
    (dayIndexArray : List (DayData Num)) : Nat → FillState Num → FillResult Num
  | 0, s => if s.timestamp < utcEndTime - oneDay then .running else .done s
  | fuel + 1, s =>
    if s.timestamp < utcEndTime - oneDay then
      let nextDay := s.timestamp + oneDay
      let currentDayIndex := dayIndex nextDay
      if currentDayIndex ∉ dayIndexSet then
        fillLoop zero utcEndTime dayIndexSet dayIndexArray fuel
          { s with
            data := s.data ++ [{ date := nextDay, dayString := some nextDay,
                                 dailyVolumeUSD := .num zero,
                                 reserveUSD := s.latestLiquidityUSD }]
            timestamp := nextDay }
      else
        match dayIndexArray[s.index]? with
        | none => .threw { s with reads := s.reads ++ [s.index] }
        | some entry =>
          fillLoop zero utcEndTime dayIndexSet dayIndexArray fuel
            { s with
              latestLiquidityUSD := entry.reserveUSD
              index := s.index + 1
              timestamp := nextDay
              reads := s.reads ++ [s.index] }
    else .done s

/-- Fuel that lets the gap filling loop run to its end: the loop adds `oneDay` to
`timestamp` in every round. -/
def fillFuel (utcEndTime timestamp : Int) : Nat :=
  ((utcEndTime - timestamp) / oneDay).toNat + 1

/-- The value `parseInt(date)` of a number. The number is printed and the leading
integer of the text is read back: below `10 ^ 21` in magnitude a whole number prints in
full and comes back unchanged; from there on it prints in exponent notation
(`1e+21`, `1.5e+21`) and only the digit before the point, with the sign, is read. -/
def parseInt (date : Int) : Int :=
  if date.natAbs < 10 ^ 21 then date
  else (if date < 0 then -1 else 1) * ((date.natAbs / 10 ^ Nat.log 10 date.natAbs : Nat) : Int)

/-- The order the comparator `(a, b) => (parseInt(a.date) > parseInt(b.date) ? 1 : -1)`
asks for: `a` goes before `b` unless the comparator answers `1`. -/
def dateOrder {Num : Type} (a b : DayData Num) : Prop :=
  ¬ (parseInt a.date > parseInt b.date)

instance {Num : Type} : DecidableRel (dateOrder : DayData Num → DayData Num → Prop) :=
  fun a b => inferInstanceAs (Decidable (¬ (parseInt a.date > parseInt b.date)))

/-- The call `data.sort(comparator)`. The engine always asks the comparator about a later
and an earlier element, and this comparator never answers `0`: the elements are placed one
after the other, each before the first element already placed that it does not exceed, so
an element comes to stand before the elements of equal date that preceded it. -/
def sortByDate {Num : Type} (data : List (DayData Num)) : List (DayData Num) :=
  data.foldl (fun sorted dayData => sorted.orderedInsert dateOrder dayData) []

/-- Lines 248-282, entered once every page has arrived: the rows are parsed, the missing
days are filled in from the first row on, and the array is sorted. When the loop throws,
the `catch` is entered and `data`, with what was pushed so far, is returned as it is.
`startTime` is `utcEndTime.subtract(1, "year").startOf("minute").unix() - 1`. -/
def fillAndSort {Num : Type} (parse : String → Num) (zero : Num) (utcEndTime startTime : Int)
    (fetched : List (DayData Num)) : Option (List (DayData Num)) :=
  let data := fetched.map (parseRow parse)
  let dayIndexSet := data.map (fun dayData => dayIndex dayData.date)
  let dayIndexArray := data
  match data with
  | [] => some (sortByDate data)
  | first :: _ =>
    let timestamp := if first.date ≠ 0 then first.date else startTime
    match fillLoop zero utcEndTime dayIndexSet dayIndexArray (fillFuel utcEndTime timestamp)
        { timestamp := timestamp, latestLiquidityUSD := first.reserveUSD, index := 1,
          data := data, reads := [] } with
    | .done s => some (sortByDate s.data)
    | .threw s => some s.data
    | .running => none

/-- The function `getPairChartData`. `utcEndTime` is `dayjs.utc().unix()`. The result is
`none` when the page loop is still running after `fuel` queries. -/
def getPairChartData {Num : Type} (parse : String → Num) (zero : Num)
    (query : Nat → Option (List (DayData Num))) (utcEndTime startTime : Int) (fuel : Nat) :
    Option (List (DayData Num)) :=
  match fetchPages query fuel 0 [] [] with
  | .running => none
  | .failed data _ => some data
  | .done data _ => fillAndSort parse zero utcEndTime startTime data

/-! ## `getHourlyRateData`: the open/close formatting -/

/-- One element of `values`: `{ timestamp, rate0, rate1 }`, the rates already parsed. -/
structure RateSample (Num : Type) where
  timestamp : String
  rate0 : Num
  rate1 : Num
deriving DecidableEq, Repr

/-- One pushed record `{ timestamp, open, close }`. -/
structure Candle (Num : Type) where
  timestamp : String
  open_ : Num
  close : Num
deriving DecidableEq, Repr

/-- One round of `for (let i = 0; i < values.length - 1; i++)` (lines 342-353). The
accumulator is `none` once a round has thrown: reading a field of `values[i]` or
`values[i + 1]` throws when that element is `undefined`. -/
def formatStep {Num : Type} (parse : String → Num) (values : List (RateSample Num))
    (acc : Option (List (Candle Num) × List (Candle Num))) (i : Nat) :
    Option (List (Candle Num) × List (Candle Num)) :=
  match acc, values[i]?, values[i + 1]? with
  | some (formattedHistoryRate0, formattedHistoryRate1), some cur, some next =>
    some (formattedHistoryRate0 ++ [{ timestamp := cur.timestamp
                                      open_ := parseFloat parse (.num cur.rate0)
                                      close := parseFloat parse (.num next.rate0) }],
          formattedHistoryRate1 ++ [{ timestamp := cur.timestamp
                                      open_ := parseFloat parse (.num cur.rate1)
                                      close := parseFloat parse (.num next.rate1) }])
  | _, _, _ => none

/-- Lines 338-359 of `getHourlyRateData`: the two candle arrays built from `values`.
`values.length - 1` is `-1` for an empty array and the loop does not run, as with the
truncated subtraction here. A throw leads to the `catch`, which returns `[[], []]`. -/
def formatHourlyRates {Num : Type} (parse : String → Num) (values : List (RateSample Num)) :
    List (Candle Num) × List (Candle Num) :=
  match (List.range (values.length - 1)).foldl (formatStep parse values) (some ([], [])) with
  | some formatted => formatted
  | none => ([], [])

/-! ## `parseData` and `getBulkPairData` -/

/-- Token descriptor of a pair. -/
structure Token where
  id : String
  symbol : String
  name : String
deriving DecidableEq, Repr

/-- The id of a pair: the address of its contract, which the API writes as `0x` followed by
forty hexadecimal digits; `address` is the number that the digits denote. No such text is
the name of a property of `Object.prototype`, so the lookup `historyData?.[pair.id]` in a
plain object finds a record of the batch or nothing. -/
structure PairId where
  address : Nat
deriving DecidableEq, Repr

/-- Pair record as the queries return it (the figures are numeric strings), with the
fields that `parseData` adds; an added field is `none` until it is assigned. -/
structure PairRecord (Num : Type) where
  id : PairId
  token0 : Token
  token1 : Token
  volumeUSD : String
  untrackedVolumeUSD : String
  reserveUSD : String
  trackedReserveETH : String
  createdAtBlockNumber : String
  oneDayVolumeUSD : Option Num
  oneWeekVolumeUSD : Option Num
  volumeChangeUSD : Option Num
  oneDayVolumeUntracked : Option Num
  volumeChangeUntracked : Option Num
  trackedReserveUSD : Option Num
  liquidityChangeUSD : Option Num
deriving DecidableEq, Repr

/-- What `parseData` takes from outside the file: the helpers of `utils` and the
arithmetic of JavaScript on the figures. -/
structure Helpers (Num : Type) where
  /-- the function `parseFloat` on a string -/
  parse : String → Num
  /-- the number `0` -/
  zero : Num
  /-- the helper `get2DayPercentChange(valueNow, value24HoursAgo, value48HoursAgo)` -/
  get2DayPercentChange : Field Num → Field Num → Field Num → Num × Num
  /-- the helper `getPercentChange(valueNow, value24HoursAgo)`; the second argument may be
  `undefined` -/
  getPercentChange : Field Num → Option (Field Num) → Num
  /-- the difference `a - b` of two numeric strings -/
  sub : String → String → Num
  /-- the product `a * b` of a numeric string and a number -/
  mul : String → Num → Num
  /-- the comparison `createdAtBlockNumber > oneDayBlock` -/
  gt : String → Nat → Bool

/-- The address of wrapped ether. -/
def wethAddress : String := "0xc02aaa39b223fe8d0a0e5c4f27ead9083c756cc2"

/-- The renaming `name = "Ether (Wrapped)"`, `symbol = "ETH"` of a token whose id is the
address of wrapped ether. -/
def renameWeth (token : Token) : Token :=
  if token.id = wethAddress then { token with name := "Ether (Wrapped)", symbol := "ETH" }
  else token

/-- The function `parseData` (lines 138-182). A non-empty string is truthy. -/
def parseData {Num : Type} (h : Helpers Num) (data : PairRecord Num)
    (oneDayData twoDayData oneWeekData : Option (PairRecord Num)) (ethPrice : Num)
    (oneDayBlock : Nat) : PairRecord Num :=
  -- get volume changes
  let volumes := h.get2DayPercentChange (.str data.volumeUSD)
    (match oneDayData with
     | some d => if d.volumeUSD ≠ "" then .str d.volumeUSD else .num h.zero
     | none => .num h.zero)
    (match twoDayData with
     | some d => if d.volumeUSD ≠ "" then .str d.volumeUSD else .num h.zero
     | none => .num h.zero)
  let oneDayVolumeUSD := volumes.1
  let volumeChangeUSD := volumes.2
  let untracked := h.get2DayPercentChange (.str data.untrackedVolumeUSD)
    (match oneDayData with
     | some d =>
       if d.untrackedVolumeUSD ≠ "" then .num (parseFloat h.parse (.str d.untrackedVolumeUSD))
       else .num h.zero
     | none => .num h.zero)
    (match twoDayData with
     | some d => if d.untrackedVolumeUSD ≠ "" then .str d.untrackedVolumeUSD else .num h.zero
     | none => .num h.zero)
  let oneDayVolumeUntracked := untracked.1
  let volumeChangeUntracked := untracked.2
  let oneWeekVolumeUSD := parseFloat h.parse
    (match oneWeekData with
     | some w => .num (h.sub data.volumeUSD w.volumeUSD)
     | none => .str data.volumeUSD)
  -- set volume properties
  let data := { data with oneDayVolumeUSD := some (parseFloat h.parse (.num oneDayVolumeUSD)) }
  let data := { data with oneWeekVolumeUSD := some oneWeekVolumeUSD }
  let data := { data with volumeChangeUSD := some volumeChangeUSD }
  let data := { data with oneDayVolumeUntracked := some oneDayVolumeUntracked }
  let data := { data with volumeChangeUntracked := some volumeChangeUntracked }
  -- set liquidity properties
  let data := { data with trackedReserveUSD := some (h.mul data.trackedReserveETH ethPrice) }
  let data := { data with
    liquidityChangeUSD :=
      some (h.getPercentChange (.str data.reserveUSD)
        (oneDayData.map (fun d : PairRecord Num => Field.str d.reserveUSD))) }
  -- format if pair hasnt existed for a day or a week
  let data :=
    if oneDayData.isNone ∧ h.gt data.createdAtBlockNumber oneDayBlock = true then
      { data with oneDayVolumeUSD := some (parseFloat h.parse (.str data.volumeUSD)) }
    else data
  let data :=
    if oneDayData.isNone then
      { data with oneDayVolumeUSD := some (parseFloat h.parse (.str data.volumeUSD)) }
    else data
  let data :=
    if oneWeekData.isNone then
      { data with oneWeekVolumeUSD := some (parseFloat h.parse (.str data.volumeUSD)) }
    else data
  let data := { data with token0 := renameWeth data.token0 }
  let data := { data with token1 := renameWeth data.token1 }
  data

/-- Settlement of a `client.query` promise. -/
inductive Reply (Num : Type) where
  /-- the promise is rejected -/
  | rejected
  /-- the result has no `data` -/
  | noData
  /-- the result carries `data.pairs` -/
  | rows (pairs : List (PairRecord Num))
deriving DecidableEq, Repr

/-- The collaborators of `getBulkPairData`. -/
structure Client (Num : Type) where
  /-- the call `getBlocksFromTimestamps(timestamps)`: the block numbers, `none` when the
  promise is rejected -/
  getBlocksFromTimestamps : List Int → Option (List Nat)
  /-- the query `PAIRS_BULK` with `allPairs` -/
  pairsBulk : List PairId → Reply Num
  /-- the query `PAIRS_HISTORICAL_BULK(block, pairList)` -/
  pairsHistoricalBulk : Nat → List PairId → Reply Num
  /-- the query `PAIR_DATA(pairId, block)` -/
  pairData : PairId → Nat → Reply Num

/-- The three places where `PAIR_DATA` is queried (lines 106, 114 and 122). -/
inductive Lookback where
  | oneDay
  | twoDay
  | oneWeek
deriving DecidableEq, Repr

/-- One issued query `PAIR_DATA(pairId, block)` and the place that issued it. -/
structure PairQuery where
  pairId : PairId
  block : Nat
  site : Lookback
deriving DecidableEq, Repr

/-- Outcome of the promise that `getBulkPairData` returns. -/
inductive BulkResult (Num : Type) where
  /-- the promise is rejected: an error reached the caller -/
  | rejects
  /-- fulfilled with `undefined`, after the `catch` -/
  | undefined
  /-- fulfilled with the array `pairData` -/
  | pairData (pairs : List (PairRecord Num))
deriving DecidableEq, Repr

/-- The object `result?.data?.pairs.reduce(...)` keyed by pair id, kept as the list of
its records; `none` is `undefined`. -/
def historyData {Num : Type} (reply : Reply Num) : Option (List (PairRecord Num)) :=
  match reply with
  | .rows pairs => some pairs
  | _ => none

/-- The lookup `historyData?.[pairId]`: the last record under that id. -/
def lookupPair {Num : Type} (data : Option (List (PairRecord Num))) (pairId : PairId) :
    Option (PairRecord Num) :=
  match data with
  | some pairs => (pairs.filter (fun p => p.id = pairId)).getLast?
  | none => none

/-- One history of a pair: the record of the batch, or, when there is none, the first
row of an individual query. Returns the queries issued and the history; the history is
`none` when the query was rejected or its result had no `data`, which throws. -/
def pairHistory {Num : Type} (client : Client Num) (site : Lookback) (block : Nat)
    (batch : Option (List (PairRecord Num))) (pairId : PairId) :
    List PairQuery × Option (Option (PairRecord Num)) :=
  match lookupPair batch pairId with
  | some history => ([], some (some history))
  | none =>
    ([{ pairId := pairId, block := block, site := site }],
      match client.pairData pairId block with
      | .rows pairs => some pairs.head?
      | _ => none)

/-- The callback of `current.data.pairs.map` (lines 102-130): the queries it issues and
the enriched record, `none` when the callback throws. -/
def enrichPair {Num : Type} (h : Helpers Num) (client : Client Num)
    (oneDayData twoDayData oneWeekData : Option (List (PairRecord Num)))
    (b1 b2 bWeek : Nat) (ethPrice : Num) (pair : PairRecord Num) :
    List PairQuery × Option (PairRecord Num) :=
  let oneDay := pairHistory client .oneDay b1 oneDayData pair.id
  match oneDay.2 with
  | none => (oneDay.1, none)
  | some oneDayHistory =>
    let twoDay := pairHistory client .twoDay b2 twoDayData pair.id
    match twoDay.2 with
    | none => (oneDay.1 ++ twoDay.1, none)
    | some twoDayHistory =>
      let oneWeek := pairHistory client .oneWeek bWeek oneWeekData pair.id
      match oneWeek.2 with
      | none => (oneDay.1 ++ twoDay.1 ++ oneWeek.1, none)
      | some oneWeekHistory =>
        (oneDay.1 ++ twoDay.1 ++ oneWeek.1,
          some (parseData h pair oneDayHistory twoDayHistory oneWeekHistory ethPrice b1))

/-- A run of `getBulkPairData`: how the returned promise settles, and every
`PAIR_DATA` query issued. -/
structure BulkRun (Num : Type) where
  result : BulkResult Num
  queries : List PairQuery

/-- The call `Promise.all` over the callbacks: every callback runs, whatever happens to the
others, and the array is delivered only if none has thrown. -/
def joinAll {Num : Type} (runs : List (List PairQuery × Option (PairRecord Num))) :
    BulkRun Num :=
  { result :=
      if runs.all (fun run => run.2.isSome) then
        .pairData (runs.filterMap (fun run => run.2))
      else .undefined
    queries := runs.flatMap (fun run => run.1) }

/-- The function `getBulkPairData` (lines 65-136). `timestamps` is the result of
`getTimestampsForChanges()`. The block numbers are resolved before the `try`: a failure
there, or fewer than three blocks to destructure, rejects the returned promise. -/
def getBulkPairData {Num : Type} (h : Helpers Num) (client : Client Num)
    (timestamps : List Int) (pairList : List PairId) (ethPrice : Num) : BulkRun Num :=
  match client.getBlocksFromTimestamps timestamps with
  | some (b1 :: b2 :: bWeek :: _) =>
    match client.pairsBulk pairList with
    | .rejected => { result := .undefined, queries := [] }
    | current =>
      match client.pairsHistoricalBulk b1 pairList, client.pairsHistoricalBulk b2 pairList,
          client.pairsHistoricalBulk bWeek pairList with
      | .rejected, _, _ => { result := .undefined, queries := [] }
      | _, .rejected, _ => { result := .undefined, queries := [] }
      | _, _, .rejected => { result := .undefined, queries := [] }
      | oneDayResult, twoDayResult, oneWeekResult =>
        match current with
        | .rows pairs =>
          joinAll (pairs.map (enrichPair h client (historyData oneDayResult)
            (historyData twoDayResult) (historyData oneWeekResult) b1 b2 bWeek ethPrice))
        | _ => { result := .undefined, queries := [] }
  | _ => { result := .rejects, queries := [] }

/-! ## Auxiliary notions for the proofs -/

/-- Position of a key in the order of the real numbers it stands for:
`..., "-1", "-0", "0", "1", ...` are sent to `..., -2, -1, 0, 1, ...`. -/
def keyRank (k : DayKey) : Int := if k.minus then -(k.digits : Int) - 1 else k.digits

/-- Position of the day key of a timestamp. -/
def dayRank (t : Int) : Int := keyRank (dayIndex t)

/-- The start value of `timestamp`: `data[0].date ? data[0].date : startTime`. -/
def firstTimestamp {Num : Type} (first : DayData Num) (startTime : Int) : Int :=
  if first.date ≠ 0 then first.date else startTime

/-- The state in which the gap filling loop is entered. -/
def fillInit {Num : Type} (first : DayData Num) (data : List (DayData Num)) (startTime : Int) :
    FillState Num :=
  { timestamp := firstTimestamp first startTime, latestLiquidityUSD := first.reserveUSD,
    index := 1, data := data, reads := [] }

/-- The gap filling loop as `getPairChartData` enters it on the fetched rows
`first :: rest`, run with `fuel` rounds. -/
def runFill {Num : Type} (parse : String → Num) (zero : Num) (utcEndTime startTime : Int)
    (first : DayData Num) (rest : List (DayData Num)) (fuel : Nat) : FillResult Num :=
  fillLoop zero utcEndTime
    (((first :: rest).map (parseRow parse)).map (fun dayData => dayIndex dayData.date))
    ((first :: rest).map (parseRow parse)) fuel
    (fillInit (parseRow parse first) ((first :: rest).map (parseRow parse)) startTime)

/-- Day key `c` belongs to no snapshot and is the key of a day step
`t + oneDay * k`, `k ≥ 1`, that lies before `utcEndTime`: the loop started at `t` pushes
an entry for it. -/
def FilledDay (utcEndTime : Int) (dayIndexSet : List DayKey) (t : Int) (c : DayKey) : Prop :=
  c ∉ dayIndexSet ∧ ∃ k : Nat, 1 ≤ k ∧ t + oneDay * k < utcEndTime ∧ dayIndex (t + oneDay * k) = c

instance dateOrder_total {Num : Type} : IsTotal (DayData Num) dateOrder :=
  ⟨fun a b => by unfold dateOrder; omega⟩

instance dateOrder_trans {Num : Type} : IsTrans (DayData Num) dateOrder :=
  ⟨fun a b c => by unfold dateOrder; omega⟩

/-- The candle of two consecutive samples, for ratio 0. -/
def candle0 {Num : Type} (cur next : RateSample Num) : Candle Num :=
  { timestamp := cur.timestamp, open_ := cur.rate0, close := next.rate0 }

/-- The candle of two consecutive samples, for ratio 1. -/
def candle1 {Num : Type} (cur next : RateSample Num) : Candle Num :=
  { timestamp := cur.timestamp, open_ := cur.rate1, close := next.rate1 }

/-! ## The properties as the specification words them -/

/-- The series has exactly one entry on every calendar day of `[startTime, utcEndTime)`
and no entry outside the window (the property as the specification words it). -/
def OneEntryPerDay {Num : Type} (startTime utcEndTime : Int) (out : List (DayData Num)) :
    Prop :=
  (∀ day : Int, startTime / oneDay ≤ day → day ≤ (utcEndTime - 1) / oneDay →
      out.countP (fun e => decide (e.date / oneDay = day)) = 1) ∧
    ∀ e ∈ out, startTime ≤ e.date ∧ e.date < utcEndTime

/-- Entry `f` has volume zero and the reserve of a snapshot with the greatest date
before the day of `f` (the property as the specification words it). -/
def CarriesForward {Num : Type} (zero : Num) (snapshots : List (DayData Num))
    (f : DayData Num) : Prop :=
  f.dailyVolumeUSD = .num zero ∧
    ∃ e ∈ snapshots, e.date < f.date ∧
      (∀ e1 ∈ snapshots, e1.date < f.date → e1.date ≤ e.date) ∧
      f.reserveUSD = e.reserveUSD

/-! ## Sample inputs -/

/-- Sample row: a snapshot dated `date` with reserve `reserve`; numbers are written as
their decimal text. -/
def exRow (date : Int) (reserve : String) : DayData String :=
  { date := date, dayString := none, dailyVolumeUSD := .str "7.5", reserveUSD := .str reserve }

/-- Sample query client: one page, returned for `skip = 0`. -/
def exQuery (page : List (DayData String)) : Nat → Option (List (DayData String)) :=
  fun skip => if skip = 0 then some page else none

/-- Sample page: snapshots of 2020-09-06, 2020-09-08 and 2020-09-11 (days 0, 2 and 5). -/
def exDays025 : List (DayData String) :=
  [exRow 1599350400 "10", exRow 1599523200 "20", exRow 1599782400 "50"]

/-- Sample page source: a full first page, then a page of two rows. -/
def exPages : Nat → List (DayData String) :=
  fun skip => if skip = 0 then List.replicate 1000 (exRow 1599868800 "10")
    else [exRow 1599955200 "11", exRow 1600041600 "12"]

/-- Sample helpers: every derived figure is a fixed text. -/
def exHelpers : Helpers String :=
  { parse := fun s => s, zero := "0",
    get2DayPercentChange := fun _ _ _ => ("1", "2"),
    getPercentChange := fun _ _ => "3",
    sub := fun _ _ => "4", mul := fun _ _ => "5", gt := fun _ _ => false }

/-- Sample pair record. -/
def exPair (address : Nat) (volumeUSD : String) : PairRecord String :=
  { id := ⟨address⟩, token0 := ⟨"t0", "A", "Token A"⟩, token1 := ⟨"t1", "B", "Token B"⟩,
    volumeUSD := volumeUSD, untrackedVolumeUSD := "0", reserveUSD := "9",
    trackedReserveETH := "2", createdAtBlockNumber := "10",
    oneDayVolumeUSD := none, oneWeekVolumeUSD := none, volumeChangeUSD := none,
    oneDayVolumeUntracked := none, volumeChangeUntracked := none,
    trackedReserveUSD := none, liquidityChangeUSD := none }

/-- Sample client: the current result has the pairs `10` and `11`, every historical batch
knows pair `10` only, individual queries find nothing. -/
def exClient : Client String :=
  { getBlocksFromTimestamps := fun _ => some [100, 90, 50],
    pairsBulk := fun _ => .rows [exPair 10 "70", exPair 11 "80"],
    pairsHistoricalBulk := fun _ _ => .rows [exPair 10 "60"],
    pairData := fun _ _ => .rows [] }

/-- Sample client whose individual queries are rejected. -/
def exClientRejecting : Client String :=
  { exClient with pairData := fun _ _ => .rejected }

/-- Sample client whose two-day bulk query (block `90`) is rejected. -/
def exClientTwoDayRejected : Client String :=
  { exClient with
    pairsHistoricalBulk := fun block _ =>
      if block = 90 then .rejected else .rows [exPair 10 "60"] }

/-- Sample client whose block resolution is rejected. -/
def exClientNoBlocks : Client String :=
  { exClient with getBlocksFromTimestamps := fun _ => none }

/-! ## Proofs: day keys -/

theorem dayRank_eq (t : Int) :
    dayRank t = if t < 0 then -(((2 * t.natAbs + 86400) / 172800 : Nat) : Int) - 1
      else (((2 * t.natAbs + 86400) / 172800 : Nat) : Int) := by
  unfold dayRank dayIndex keyRank
  by_cases h : t < 0
  · rw [if_pos h, if_pos h]; rfl
  · rw [if_neg h, if_neg h]; rfl

theorem keyRank_injective {a b : DayKey} (h : keyRank a = keyRank b) : a = b := by
  cases a with
  | mk am ad =>
    cases b with
    | mk bm bd =>
      simp only [keyRank] at h
      cases am <;> cases bm <;> simp at h <;> first | omega | (subst h; rfl)

theorem dayRank_step (t : Int) : dayRank t < dayRank (t + oneDay) := by
  rw [dayRank_eq, dayRank_eq]
  simp only [oneDay]
  split_ifs <;> omega

theorem dayRank_step_nonneg (t : Int) (h : 0 ≤ t) : dayRank (t + oneDay) = dayRank t + 1 := by
  rw [dayRank_eq, dayRank_eq]
  simp only [oneDay]
  split_ifs <;> omega

theorem dayRank_mono {t u : Int} (h : t ≤ u) : dayRank t ≤ dayRank u := by
  rw [dayRank_eq, dayRank_eq]
  split_ifs <;> omega

theorem dayRank_steps (t : Int) (k : Nat) : dayRank t + k ≤ dayRank (t + oneDay * k) := by
  induction k with
  | zero => simp
  | succ n ih =>
    have h := dayRank_step (t + oneDay * n)
    have e : t + oneDay * (n + 1 : Nat) = t + oneDay * n + oneDay := by push_cast; ring
    rw [e]; push_cast; omega

theorem dayIndex_steps_ne (t : Int) (k : Nat) (hk : 1 ≤ k) :
    dayIndex (t + oneDay * k) ≠ dayIndex t := by
  intro h
  have h1 := dayRank_steps t k
  have h2 : dayRank (t + oneDay * k) = dayRank t := by unfold dayRank; rw [h]
  omega

/-! ## The gap filling loop, one round at a time -/

section FillLoop

variable {Num : Type} (zero : Num) (utcEndTime : Int) (dayIndexSet : List DayKey)
  (dayIndexArray : List (DayData Num))

theorem fillLoop_stop (fuel : Nat) (s : FillState Num)
    (h : ¬ s.timestamp < utcEndTime - oneDay) :
    fillLoop zero utcEndTime dayIndexSet dayIndexArray fuel s = .done s := by
  cases fuel <;> simp only [fillLoop, if_neg h]

theorem fillLoop_fill (fuel : Nat) (s : FillState Num)
    (h : s.timestamp < utcEndTime - oneDay)
    (hk : dayIndex (s.timestamp + oneDay) ∉ dayIndexSet) :
    fillLoop zero utcEndTime dayIndexSet dayIndexArray (fuel + 1) s =
      fillLoop zero utcEndTime dayIndexSet dayIndexArray fuel
        { s with
          data := s.data ++ [{ date := s.timestamp + oneDay,
                               dayString := some (s.timestamp + oneDay),
                               dailyVolumeUSD := .num zero,
                               reserveUSD := s.latestLiquidityUSD }]
          timestamp := s.timestamp + oneDay } := by
  simp only [fillLoop, if_pos h, hk, not_false_eq_true, if_true]

theorem fillLoop_hit (fuel : Nat) (s : FillState Num) (entry : DayData Num)
    (h : s.timestamp < utcEndTime - oneDay)
    (hk : dayIndex (s.timestamp + oneDay) ∈ dayIndexSet)
    (he : dayIndexArray[s.index]? = some entry) :
    fillLoop zero utcEndTime dayIndexSet dayIndexArray (fuel + 1) s =
      fillLoop zero utcEndTime dayIndexSet dayIndexArray fuel
        { s with
          latestLiquidityUSD := entry.reserveUSD
          index := s.index + 1
          timestamp := s.timestamp + oneDay
          reads := s.reads ++ [s.index] } := by
  simp only [fillLoop, if_pos h, hk, not_true_eq_false, if_false, he]

theorem fillLoop_throw (fuel : Nat) (s : FillState Num)
    (h : s.timestamp < utcEndTime - oneDay)
    (hk : dayIndex (s.timestamp + oneDay) ∈ dayIndexSet)
    (he : dayIndexArray[s.index]? = none) :
    fillLoop zero utcEndTime dayIndexSet dayIndexArray (fuel + 1) s =
      .threw { s with reads := s.reads ++ [s.index] } := by
  simp only [fillLoop, if_pos h, hk, not_true_eq_false, if_false, he]

theorem fillLoop_zero_running (s : FillState Num) (h : s.timestamp < utcEndTime - oneDay) :
    fillLoop zero utcEndTime dayIndexSet dayIndexArray 0 s = .running := by
  simp only [fillLoop, if_pos h]

theorem fillLoop_not_running (fuel : Nat) : ∀ s : FillState Num,
    ((utcEndTime - s.timestamp) / oneDay).toNat ≤ fuel →
    fillLoop zero utcEndTime dayIndexSet dayIndexArray fuel s ≠ .running := by
  induction fuel with
  | zero =>
    intro s h
    have : ¬ s.timestamp < utcEndTime - oneDay := by
      simp only [oneDay] at h ⊢; omega
    rw [fillLoop_stop _ _ _ _ _ _ this]; simp
  | succ n ih =>
    intro s h
    by_cases hc : s.timestamp < utcEndTime - oneDay
    · have hn : ((utcEndTime - (s.timestamp + oneDay)) / oneDay).toNat ≤ n := by
        simp only [oneDay] at h hc ⊢; omega
      by_cases hk : dayIndex (s.timestamp + oneDay) ∈ dayIndexSet
      · cases he : dayIndexArray[s.index]? with
        | none => rw [fillLoop_throw _ _ _ _ _ _ hc hk he]; simp
        | some e =>
          rw [fillLoop_hit _ _ _ _ _ _ _ hc hk he]
          exact ih _ hn
      · rw [fillLoop_fill _ _ _ _ _ _ hc hk]
        exact ih _ hn
    · rw [fillLoop_stop _ _ _ _ _ _ hc]; simp

theorem fillLoop_fuel_succ (fuel : Nat) : ∀ s : FillState Num,
    fillLoop zero utcEndTime dayIndexSet dayIndexArray fuel s ≠ .running →
    fillLoop zero utcEndTime dayIndexSet dayIndexArray (fuel + 1) s =
      fillLoop zero utcEndTime dayIndexSet dayIndexArray fuel s := by
  induction fuel with
  | zero =>
    intro s h
    by_cases hc : s.timestamp < utcEndTime - oneDay
    · exact absurd (fillLoop_zero_running _ _ _ _ _ hc) h
    · rw [fillLoop_stop _ _ _ _ _ _ hc, fillLoop_stop _ _ _ _ _ _ hc]
  | succ n ih =>
    intro s h
    by_cases hc : s.timestamp < utcEndTime - oneDay
    · by_cases hk : dayIndex (s.timestamp + oneDay) ∈ dayIndexSet
      · cases he : dayIndexArray[s.index]? with
        | none => rw [fillLoop_throw _ _ _ _ _ _ hc hk he, fillLoop_throw _ _ _ _ _ _ hc hk he]
        | some e =>
          rw [fillLoop_hit _ _ _ _ _ _ _ hc hk he] at h ⊢
          rw [fillLoop_hit _ _ _ _ n _ _ hc hk he]
          exact ih _ h
      · rw [fillLoop_fill _ _ _ _ _ _ hc hk] at h ⊢
        rw [fillLoop_fill _ _ _ _ n _ hc hk]
        exact ih _ h
    · rw [fillLoop_stop _ _ _ _ _ _ hc, fillLoop_stop _ _ _ _ _ _ hc]

theorem fillLoop_fuel_ge (fuel more : Nat) (s : FillState Num)
    (h : fillLoop zero utcEndTime dayIndexSet dayIndexArray fuel s ≠ .running) :
    fillLoop zero utcEndTime dayIndexSet dayIndexArray (fuel + more) s =
      fillLoop zero utcEndTime dayIndexSet dayIndexArray fuel s := by
  induction more with
  | zero => rfl
  | succ m ih =>
    rw [← Nat.add_assoc, fillLoop_fuel_succ _ _ _ _ _ _ (by rw [ih]; exact h), ih]

theorem countP_lt_of_witness {α : Type} (p q : α → Bool) (l : List α)
    (hpq : ∀ x, p x = true → q x = true) (e : α) (he : e ∈ l) (hq : q e = true)
    (hp : p e = false) : l.countP p < l.countP q := by
  induction l with
  | nil => cases he
  | cons a t ih =>
    have hmono : t.countP p ≤ t.countP q := List.countP_mono_left (fun x _ => hpq x)
    rw [List.countP_cons, List.countP_cons]
    rcases List.mem_cons.1 he with rfl | h
    · rw [if_pos hq, if_neg (by rw [hp]; simp)]; omega
    · have := ih h
      by_cases hpa : p a = true
      · rw [if_pos hpa, if_pos (hpq a hpa)]; omega
      · rw [if_neg hpa]; split_ifs <;> omega

theorem fillLoop_safe (hS : dayIndexSet = dayIndexArray.map (fun d => dayIndex d.date))
    (fuel : Nat) : ∀ s : FillState Num,
    s.index + dayIndexArray.countP
      (fun e => decide (dayRank (s.timestamp + oneDay) ≤ dayRank e.date))
      ≤ dayIndexArray.length →
    (∀ i ∈ s.reads, i < dayIndexArray.length) →
    (∀ r, fillLoop zero utcEndTime dayIndexSet dayIndexArray fuel s ≠ .threw r) ∧
    (∀ r, fillLoop zero utcEndTime dayIndexSet dayIndexArray fuel s = .done r →
      ∀ i ∈ r.reads, i < dayIndexArray.length) := by
  induction fuel with
  | zero =>
    intro s _ hr
    by_cases hc : s.timestamp < utcEndTime - oneDay
    · rw [fillLoop_zero_running _ _ _ _ _ hc]; simp
    · rw [fillLoop_stop _ _ _ _ _ _ hc]
      refine ⟨fun r h => (by cases h), fun r h => ?_⟩
      cases h; exact hr
  | succ n ih =>
    intro s hinv hr
    by_cases hc : s.timestamp < utcEndTime - oneDay
    · have hmono : dayIndexArray.countP
          (fun e => decide (dayRank (s.timestamp + oneDay + oneDay) ≤ dayRank e.date)) ≤
          dayIndexArray.countP
          (fun e => decide (dayRank (s.timestamp + oneDay) ≤ dayRank e.date)) := by
        apply List.countP_mono_left
        intro x _ hx
        have := dayRank_step (s.timestamp + oneDay)
        simp only [decide_eq_true_eq] at hx ⊢
        omega
      by_cases hk : dayIndex (s.timestamp + oneDay) ∈ dayIndexSet
      · have hlt : dayIndexArray.countP
            (fun e => decide (dayRank (s.timestamp + oneDay + oneDay) ≤ dayRank e.date)) <
            dayIndexArray.countP
            (fun e => decide (dayRank (s.timestamp + oneDay) ≤ dayRank e.date)) := by
          rw [hS, List.mem_map] at hk
          obtain ⟨e, he, hek⟩ := hk
          have hrank : dayRank e.date = dayRank (s.timestamp + oneDay) := by
            unfold dayRank; rw [hek]
          have hstep := dayRank_step (s.timestamp + oneDay)
          apply countP_lt_of_witness _ _ _ _ e he
          · simp only [decide_eq_true_eq]; omega
          · simp only [decide_eq_false_iff_not]; omega
          · intro x hx
            simp only [decide_eq_true_eq] at hx ⊢
            omega
        have hidx : s.index < dayIndexArray.length := by omega
        have he : dayIndexArray[s.index]? = some (dayIndexArray[s.index]) :=
          List.getElem?_eq_getElem hidx
        rw [fillLoop_hit _ _ _ _ _ _ _ hc hk he]
        apply ih
        · dsimp only
          omega
        · intro i hi
          rcases List.mem_append.1 hi with h | h
          · exact hr i h
          · rw [List.mem_singleton] at h; omega
      · rw [fillLoop_fill _ _ _ _ _ _ hc hk]
        apply ih
        · dsimp only
          omega
        · exact hr
    · rw [fillLoop_stop _ _ _ _ _ _ hc]
      refine ⟨fun r h => (by cases h), fun r h => ?_⟩
      cases h; exact hr

theorem filledDay_stop {utcEndTime : Int} {dayIndexSet : List DayKey} {t : Int} {c : DayKey}
    (h : ¬ t < utcEndTime - oneDay) : ¬ FilledDay utcEndTime dayIndexSet t c := by
  rintro ⟨_, k, hk, hlt, _⟩
  have : oneDay * (k : Int) ≥ oneDay := by
    have : (1 : Int) ≤ k := by exact_mod_cast hk
    simp only [oneDay]; omega
  omega

theorem filledDay_step {utcEndTime : Int} {dayIndexSet : List DayKey} {t : Int} {c : DayKey}
    (h : t < utcEndTime - oneDay) :
    FilledDay utcEndTime dayIndexSet t c ↔
      (c ∉ dayIndexSet ∧ dayIndex (t + oneDay) = c) ∨
        FilledDay utcEndTime dayIndexSet (t + oneDay) c := by
  constructor
  · rintro ⟨hc, k, hk, hlt, hkey⟩
    rcases Nat.eq_or_lt_of_le hk with h1 | h1
    · left
      subst h1
      simp only [Nat.cast_one, mul_one] at hkey
      exact ⟨hc, hkey⟩
    · right
      refine ⟨hc, k - 1, by omega, ?_, ?_⟩
      · have e : t + oneDay + oneDay * ((k - 1 : Nat) : Int) = t + oneDay * k := by
          have : ((k - 1 : Nat) : Int) = (k : Int) - 1 := by omega
          rw [this]; ring
        rw [e]; exact hlt
      · have e : t + oneDay + oneDay * ((k - 1 : Nat) : Int) = t + oneDay * k := by
          have : ((k - 1 : Nat) : Int) = (k : Int) - 1 := by omega
          rw [this]; ring
        rw [e]; exact hkey
  · rintro (⟨hc, hkey⟩ | ⟨hc, k, hk, hlt, hkey⟩)
    · refine ⟨hc, 1, le_refl _, ?_, ?_⟩
      · simp only [Nat.cast_one, mul_one]; omega
      · simp only [Nat.cast_one, mul_one]; exact hkey
    · have e : t + oneDay * ((k + 1 : Nat) : Int) = t + oneDay + oneDay * k := by
        push_cast; ring
      exact ⟨hc, k + 1, by omega, by rw [e]; exact hlt, by rw [e]; exact hkey⟩

theorem filledDay_excl {utcEndTime : Int} {dayIndexSet : List DayKey} {t : Int} {c : DayKey}
    (h : dayIndex t = c) : ¬ FilledDay utcEndTime dayIndexSet t c := by
  rintro ⟨_, k, hk, _, hkey⟩
  exact dayIndex_steps_ne t k hk (hkey.trans h.symm)

theorem fillLoop_count (c : DayKey) (fuel : Nat) : ∀ (s r : FillState Num),
    fillLoop zero utcEndTime dayIndexSet dayIndexArray fuel s = .done r →
    (FilledDay utcEndTime dayIndexSet s.timestamp c →
      r.data.countP (fun e => decide (dayIndex e.date = c)) =
        s.data.countP (fun e => decide (dayIndex e.date = c)) + 1) ∧
    (¬ FilledDay utcEndTime dayIndexSet s.timestamp c →
      r.data.countP (fun e => decide (dayIndex e.date = c)) =
        s.data.countP (fun e => decide (dayIndex e.date = c))) := by
  induction fuel with
  | zero =>
    intro s r h
    by_cases hc : s.timestamp < utcEndTime - oneDay
    · rw [fillLoop_zero_running _ _ _ _ _ hc] at h; cases h
    · rw [fillLoop_stop _ _ _ _ _ _ hc] at h
      cases h
      exact ⟨fun hf => absurd hf (filledDay_stop hc), fun _ => rfl⟩
  | succ n ih =>
    intro s r h
    by_cases hc : s.timestamp < utcEndTime - oneDay
    · by_cases hk : dayIndex (s.timestamp + oneDay) ∈ dayIndexSet
      · cases he : dayIndexArray[s.index]? with
        | none => rw [fillLoop_throw _ _ _ _ _ _ hc hk he] at h; cases h
        | some e =>
          rw [fillLoop_hit _ _ _ _ _ _ _ hc hk he] at h
          have := ih _ r h
          dsimp only at this
          have hiff : FilledDay utcEndTime dayIndexSet s.timestamp c ↔
              FilledDay utcEndTime dayIndexSet (s.timestamp + oneDay) c := by
            rw [filledDay_step hc]
            constructor
            · rintro (⟨h1, h2⟩ | h3)
              · exact absurd (h2 ▸ hk) h1
              · exact h3
            · exact Or.inr
          rw [hiff]; exact this
      · rw [fillLoop_fill _ _ _ _ _ _ hc hk] at h
        have := ih _ r h
        dsimp only at this
        rw [List.countP_append, List.countP_singleton] at this
        dsimp only at this
        by_cases hkey : dayIndex (s.timestamp + oneDay) = c
        · have hno : ¬ FilledDay utcEndTime dayIndexSet (s.timestamp + oneDay) c :=
            filledDay_excl hkey
          have hyes : FilledDay utcEndTime dayIndexSet s.timestamp c :=
            (filledDay_step hc).2 (Or.inl ⟨hkey ▸ hk, hkey⟩)
          refine ⟨fun _ => ?_, fun hn => absurd hyes hn⟩
          rw [this.2 hno]; simp [hkey]
        · have hiff : FilledDay utcEndTime dayIndexSet s.timestamp c ↔
              FilledDay utcEndTime dayIndexSet (s.timestamp + oneDay) c := by
            rw [filledDay_step hc]
            constructor
            · rintro (⟨_, h2⟩ | h3)
              · exact absurd h2 hkey
              · exact h3
            · exact Or.inr
          rw [hiff]
          simp only [hkey, decide_False, Bool.false_eq_true, if_false, Nat.add_zero] at this
          exact this
    · rw [fillLoop_stop _ _ _ _ _ _ hc] at h
      cases h
      exact ⟨fun hf => absurd hf (filledDay_stop hc), fun _ => rfl⟩

/-- What the loop appends: entries of volume zero, stamped with a day step before
`utcEndTime` whose key no snapshot has. -/
theorem fillLoop_data (fuel : Nat) : ∀ (s r : FillState Num),
    fillLoop zero utcEndTime dayIndexSet dayIndexArray fuel s = .done r →
    ∃ fillers, r.data = s.data ++ fillers ∧ ∀ f ∈ fillers,
      f.dailyVolumeUSD = .num zero ∧ dayIndex f.date ∉ dayIndexSet ∧ f.date < utcEndTime ∧
      ∃ k : Nat, 1 ≤ k ∧ f.date = s.timestamp + oneDay * k := by
  induction fuel with
  | zero =>
    intro s r h
    by_cases hc : s.timestamp < utcEndTime - oneDay
    · rw [fillLoop_zero_running _ _ _ _ _ hc] at h; cases h
    · rw [fillLoop_stop _ _ _ _ _ _ hc] at h
      cases h
      exact ⟨[], by simp, by simp⟩
  | succ n ih =>
    intro s r h
    by_cases hc : s.timestamp < utcEndTime - oneDay
    · by_cases hk : dayIndex (s.timestamp + oneDay) ∈ dayIndexSet
      · cases he : dayIndexArray[s.index]? with
        | none => rw [fillLoop_throw _ _ _ _ _ _ hc hk he] at h; cases h
        | some e =>
          rw [fillLoop_hit _ _ _ _ _ _ _ hc hk he] at h
          obtain ⟨fillers, hd, hf⟩ := ih _ r h
          refine ⟨fillers, hd, fun f hfm => ?_⟩
          obtain ⟨h1, h2, h3, k, hk1, hk2⟩ := hf f hfm
          refine ⟨h1, h2, h3, k + 1, by omega, ?_⟩
          rw [hk2]; push_cast; ring
      · rw [fillLoop_fill _ _ _ _ _ _ hc hk] at h
        obtain ⟨fillers, hd, hf⟩ := ih _ r h
        dsimp only at hd hf
        refine ⟨{ date := s.timestamp + oneDay, dayString := some (s.timestamp + oneDay),
                  dailyVolumeUSD := .num zero,
                  reserveUSD := s.latestLiquidityUSD } :: fillers,
          by rw [hd]; simp, fun f hfm => ?_⟩
        rcases List.mem_cons.1 hfm with rfl | hfm
        · refine ⟨rfl, hk, ?_, 1, le_refl _, ?_⟩
          · dsimp only; omega
          · simp
        · obtain ⟨h1, h2, h3, k, hk1, hk2⟩ := hf f hfm
          refine ⟨h1, h2, h3, k + 1, by omega, ?_⟩
          rw [hk2]; push_cast; ring
    · rw [fillLoop_stop _ _ _ _ _ _ hc] at h
      cases h
      exact ⟨[], by simp, by simp⟩

/-- When the snapshots arrive with strictly increasing day keys, the loop never throws and
every entry it appends carries the reserve of the snapshot with the greatest key below
its own. -/
theorem fillLoop_ascending
    (hS : dayIndexSet = dayIndexArray.map (fun d => dayIndex d.date))
    (hA : dayIndexArray.Pairwise (fun a b => dayRank a.date < dayRank b.date))
    (fuel : Nat) : ∀ s : FillState Num,
    0 ≤ s.timestamp →
    (∃ e0 ∈ dayIndexArray, s.latestLiquidityUSD = e0.reserveUSD ∧
      (∀ e ∈ dayIndexArray.take s.index, dayRank e.date ≤ dayRank e0.date) ∧
      dayRank e0.date ≤ dayRank s.timestamp) →
    (∀ e ∈ dayIndexArray.drop s.index, dayRank s.timestamp < dayRank e.date) →
    ∀ r, fillLoop zero utcEndTime dayIndexSet dayIndexArray fuel s = .done r →
    ∃ fillers, r.data = s.data ++ fillers ∧ ∀ f ∈ fillers,
      f.dailyVolumeUSD = .num zero ∧ dayIndex f.date ∉ dayIndexSet ∧
      ∃ e ∈ dayIndexArray, dayRank e.date < dayRank f.date ∧
        (∀ e1 ∈ dayIndexArray, dayRank e1.date < dayRank f.date →
          dayRank e1.date ≤ dayRank e.date) ∧
        f.reserveUSD = e.reserveUSD := by
  induction fuel with
  | zero =>
    intro s _ _ _ r h
    by_cases hc : s.timestamp < utcEndTime - oneDay
    · rw [fillLoop_zero_running _ _ _ _ _ hc] at h; cases h
    · rw [fillLoop_stop _ _ _ _ _ _ hc] at h
      cases h
      exact ⟨[], by simp, by simp⟩
  | succ n ih =>
    intro s hpos hlow hhigh r h
    by_cases hc : s.timestamp < utcEndTime - oneDay
    · have hstep := dayRank_step_nonneg s.timestamp hpos
      have hpos1 : 0 ≤ s.timestamp + oneDay := by simp only [oneDay]; omega
      obtain ⟨e0, he0, hlat, htake, hle⟩ := hlow
      by_cases hk : dayIndex (s.timestamp + oneDay) ∈ dayIndexSet
      · -- the day has a snapshot: it is the next one in the array
        have hk1 := hk
        rw [hS, List.mem_map] at hk1
        obtain ⟨e, he, hek⟩ := hk1
        have hrank : dayRank e.date = dayRank s.timestamp + 1 := by
          rw [← hstep]; unfold dayRank; rw [hek]
        have hdrop : e ∈ dayIndexArray.drop s.index := by
          rw [← List.take_append_drop s.index dayIndexArray] at he
          rcases List.mem_append.1 he with h1 | h1
          · have := htake e h1; omega
          · exact h1
        have hidx : s.index < dayIndexArray.length := by
          by_contra hcon
          rw [List.drop_of_length_le (by omega)] at hdrop
          cases hdrop
        have hsplit : dayIndexArray.drop s.index =
            dayIndexArray[s.index] :: dayIndexArray.drop (s.index + 1) :=
          List.drop_eq_getElem_cons hidx
        have hpw : (dayIndexArray.drop s.index).Pairwise
            (fun a b => dayRank a.date < dayRank b.date) :=
          hA.sublist (List.drop_sublist _ _)
        rw [hsplit, List.pairwise_cons] at hpw
        have hd_mem : dayIndexArray[s.index] ∈ dayIndexArray.drop s.index := by
          rw [hsplit]; exact List.mem_cons_self _ _
        have hd_gt := hhigh _ hd_mem
        have hd_rank : dayRank (dayIndexArray[s.index]).date = dayRank s.timestamp + 1 := by
          rw [hsplit] at hdrop
          rcases List.mem_cons.1 hdrop with h1 | h1
          · rw [← h1]; exact hrank
          · have := hpw.1 e h1; omega
        have hget : dayIndexArray[s.index]? = some (dayIndexArray[s.index]) :=
          List.getElem?_eq_getElem hidx
        rw [fillLoop_hit _ _ _ _ _ _ _ hc hk hget] at h
        have hrec := ih _ ?_ ?_ ?_ r h
        · exact hrec
        · exact hpos1
        · refine ⟨dayIndexArray[s.index], List.getElem_mem _, rfl, ?_, ?_⟩
          · intro x hx
            dsimp only at hx
            rw [List.take_succ, List.getElem?_eq_getElem hidx] at hx
            rcases List.mem_append.1 hx with h1 | h1
            · have := htake x h1; omega
            · simp only [Option.toList_some, List.mem_singleton] at h1
              rw [h1]
          · dsimp only; omega
        · intro x hx
          dsimp only at hx ⊢
          have := hpw.1 x hx
          omega
      · rw [fillLoop_fill _ _ _ _ _ _ hc hk] at h
        have hhigh1 : ∀ x ∈ dayIndexArray.drop s.index,
            dayRank (s.timestamp + oneDay) < dayRank x.date := by
          intro x hx
          have h1 := hhigh x hx
          have hne : dayRank x.date ≠ dayRank (s.timestamp + oneDay) := by
            intro hcon
            apply hk
            rw [hS, List.mem_map]
            exact ⟨x, List.mem_of_mem_drop hx, keyRank_injective hcon⟩
          omega
        have hrec := ih _ ?_ ?_ ?_ r h
        rotate_left
        · exact hpos1
        · exact ⟨e0, he0, hlat, htake, by dsimp only; omega⟩
        · exact hhigh1
        obtain ⟨fillers, hd, hf⟩ := hrec
        dsimp only at hd
        refine ⟨{ date := s.timestamp + oneDay, dayString := some (s.timestamp + oneDay),
                  dailyVolumeUSD := .num zero,
                  reserveUSD := s.latestLiquidityUSD } :: fillers,
          by rw [hd]; simp, fun f hfm => ?_⟩
        rcases List.mem_cons.1 hfm with rfl | hfm
        · refine ⟨rfl, hk, e0, he0, by dsimp only; omega, ?_, hlat⟩
          intro x hx hlt
          dsimp only at hlt
          rw [← List.take_append_drop s.index dayIndexArray] at hx
          rcases List.mem_append.1 hx with h1 | h1
          · exact htake x h1
          · have := hhigh1 x h1; omega
        · exact hf f hfm
    · rw [fillLoop_stop _ _ _ _ _ _ hc] at h
      cases h
      exact ⟨[], by simp, by simp⟩

end FillLoop

theorem parseInt_of_lt {date : Int} (h : date.natAbs < 10 ^ 21) : parseInt date = date := by
  unfold parseInt; rw [if_pos h]

theorem sortByDate_foldl {Num : Type} (data placed : List (DayData Num)) :
    data.foldl (fun sorted dayData => sorted.orderedInsert dateOrder dayData)
        (placed.insertionSort dateOrder) =
      (data.reverse ++ placed).insertionSort dateOrder := by
  induction data generalizing placed with
  | nil => rfl
  | cons x xs ih =>
    rw [List.foldl_cons, List.reverse_cons, List.append_assoc, List.singleton_append]
    exact ih (x :: placed)

theorem sortByDate_eq {Num : Type} (data : List (DayData Num)) :
    sortByDate data = data.reverse.insertionSort dateOrder := by
  have h := sortByDate_foldl data []
  rw [List.append_nil] at h
  exact h

theorem sortByDate_sorted {Num : Type} (data : List (DayData Num)) :
    (sortByDate data).Sorted (fun a b => parseInt a.date ≤ parseInt b.date) := by
  rw [sortByDate_eq]
  have h := List.sorted_insertionSort (dateOrder : DayData Num → DayData Num → Prop)
    data.reverse
  refine List.Pairwise.imp ?_ h
  intro a b hab
  unfold dateOrder at hab
  omega

theorem sortByDate_perm {Num : Type} (data : List (DayData Num)) :
    (sortByDate data).Perm data := by
  rw [sortByDate_eq]
  exact (List.perm_insertionSort _ data.reverse).trans (List.reverse_perm data)

theorem parseRow_date {Num : Type} (parse : String → Num) (d : DayData Num) :
    (parseRow parse d).date = d.date := rfl

theorem fillAndSort_cons {Num : Type} (parse : String → Num) (zero : Num)
    (utcEndTime startTime : Int) (first : DayData Num) (rest : List (DayData Num)) :
    fillAndSort parse zero utcEndTime startTime (first :: rest) =
      match runFill parse zero utcEndTime startTime first rest
          (fillFuel utcEndTime (firstTimestamp first startTime)) with
      | .done s => some (sortByDate s.data)
      | .threw s => some s.data
      | .running => none := rfl

theorem getPairChartData_done {Num : Type} (parse : String → Num) (zero : Num)
    (query : Nat → Option (List (DayData Num))) (utcEndTime startTime : Int) (fuel : Nat)
    (fetched : List (DayData Num)) (skips : List Nat)
    (h : fetchPages query fuel 0 [] [] = .done fetched skips) :
    getPairChartData parse zero query utcEndTime startTime fuel =
      fillAndSort parse zero utcEndTime startTime fetched := by
  unfold getPairChartData; rw [h]

theorem dayRank_first_lt {Num : Type} (first : DayData Num) (startTime : Int)
    (h : first.date ≠ 0 ∨ -43200 ≤ startTime) :
    dayRank first.date < dayRank (firstTimestamp first startTime + oneDay) := by
  unfold firstTimestamp
  by_cases h0 : first.date = 0
  · have hs : -43200 ≤ startTime := by
      rcases h with h | h
      · exact absurd h0 h
      · exact h
    rw [if_neg (by simpa using h0), h0]
    have h1 : dayRank (43200 : Int) ≤ dayRank (startTime + oneDay) :=
      dayRank_mono (by simp only [oneDay]; omega)
    have h2 : dayRank (0 : Int) = 0 := by decide
    have h3 : dayRank (43200 : Int) = 1 := by decide
    omega
  · rw [if_pos h0]
    exact dayRank_step _

/-- With a first date that is not `0` (or a clock at least a year past the epoch) the
loop runs to its end, for every fuel from `fillFuel` on, and reads inside the array. -/
theorem runFill_done {Num : Type} (parse : String → Num) (zero : Num)
    (utcEndTime startTime : Int) (first : DayData Num) (rest : List (DayData Num))
    (h : first.date ≠ 0 ∨ -43200 ≤ startTime) :
    ∃ r, (∀ fuel, fillFuel utcEndTime (firstTimestamp first startTime) ≤ fuel →
        runFill parse zero utcEndTime startTime first rest fuel = .done r) ∧
      ∀ i ∈ r.reads, i < (first :: rest).length := by
  have hnr := fillLoop_not_running zero utcEndTime
    (((first :: rest).map (parseRow parse)).map (fun dayData => dayIndex dayData.date))
    ((first :: rest).map (parseRow parse))
    (fillFuel utcEndTime (firstTimestamp first startTime))
    (fillInit (parseRow parse first) ((first :: rest).map (parseRow parse)) startTime)
    (by unfold fillFuel fillInit firstTimestamp; simp only [parseRow_date]; omega)
  have hsafe := fillLoop_safe zero utcEndTime
    (((first :: rest).map (parseRow parse)).map (fun dayData => dayIndex dayData.date))
    ((first :: rest).map (parseRow parse)) rfl
    (fillFuel utcEndTime (firstTimestamp first startTime))
    (fillInit (parseRow parse first) ((first :: rest).map (parseRow parse)) startTime)
    (by
      have hlt := dayRank_first_lt first startTime h
      have hle := List.countP_le_length
        (fun e : DayData Num => decide (dayRank (firstTimestamp first startTime + oneDay) ≤
          dayRank e.date)) (l := rest.map (parseRow parse))
      show 1 + List.countP (fun e : DayData Num =>
          decide (dayRank (firstTimestamp first startTime + oneDay) ≤ dayRank e.date))
          (parseRow parse first :: rest.map (parseRow parse)) ≤
        (rest.map (parseRow parse)).length + 1
      rw [List.countP_cons, if_neg (by
        simp only [decide_eq_true_eq, parseRow_date]; omega)]
      omega)
    (by simp [fillInit])
  cases hres : fillLoop zero utcEndTime
    (((first :: rest).map (parseRow parse)).map (fun dayData => dayIndex dayData.date))
    ((first :: rest).map (parseRow parse))
    (fillFuel utcEndTime (firstTimestamp first startTime))
    (fillInit (parseRow parse first) ((first :: rest).map (parseRow parse)) startTime) with
  | running => exact absurd hres hnr
  | threw s => exact absurd hres (hsafe.1 s)
  | done r =>
    refine ⟨r, fun fuel hfuel => ?_, ?_⟩
    · obtain ⟨more, rfl⟩ := Nat.exists_eq_add_of_le hfuel
      unfold runFill
      rw [fillLoop_fuel_ge _ _ _ _ _ _ _ hnr, hres]
    · have := hsafe.2 r hres
      simpa using this

/-- C10 (amended): for every non-empty list of snapshots (any order, duplicate days
allowed) whose first date is positive, or is `0` while `startTime`, one year before the
current time, is at least `-43200`, the gap filling loop ends for every fuel from
`fillFuel` on, never throws, reads `dayIndexArray` only at indices below the number of
snapshots, and the sort is reached. -/
theorem fillLoop_terminates_in_bounds {Num : Type} (parse : String → Num) (zero : Num)
    (utcEndTime startTime : Int) (first : DayData Num) (rest : List (DayData Num))
    (h : 0 < first.date ∨ (first.date = 0 ∧ -43200 ≤ startTime)) :
    ∃ r, (∀ fuel, fillFuel utcEndTime (firstTimestamp first startTime) ≤ fuel →
        runFill parse zero utcEndTime startTime first rest fuel = .done r) ∧
      (∀ i ∈ r.reads, i < (first :: rest).length) ∧
      fillAndSort parse zero utcEndTime startTime (first :: rest) =
        some (sortByDate r.data) := by
  obtain ⟨r, hrun, hreads⟩ := runFill_done parse zero utcEndTime startTime first rest
    (h.elim (fun hp => Or.inl (by omega)) (fun hz => Or.inr hz.2))
  refine ⟨r, hrun, hreads, ?_⟩
  rw [fillAndSort_cons, hrun _ (le_refl _)]

theorem fillLoop_terminates_in_bounds_witness :
    (0 < (exRow 1599350400 "10").date ∨
      ((exRow 1599350400 "10").date = 0 ∧ (-43200 : Int) ≤ 1568177579)) ∧
    ∃ r, (∀ fuel, fillFuel 1599800000 (firstTimestamp (exRow 1599350400 "10") 1568177579) ≤
          fuel →
        runFill id "0" 1599800000 1568177579 (exRow 1599350400 "10")
          [exRow 1599523200 "20", exRow 1599782400 "50"] fuel = .done r) ∧
      (∀ i ∈ r.reads, i < (exRow 1599350400 "10" ::
        [exRow 1599523200 "20", exRow 1599782400 "50"]).length) ∧
      fillAndSort id "0" 1599800000 1568177579 (exRow 1599350400 "10" ::
        [exRow 1599523200 "20", exRow 1599782400 "50"]) = some (sortByDate r.data) :=
  ⟨by decide, fillLoop_terminates_in_bounds id "0" 1599800000 1568177579
    (exRow 1599350400 "10") [exRow 1599523200 "20", exRow 1599782400 "50"] (by decide)⟩

/-- On the snapshots of the days 0, 2 and 5 the loop runs five rounds: it pushes three
entries and reads `dayIndexArray[1]` and `dayIndexArray[2]`. -/
theorem runFill_days_0_2_5 :
    runFill id "0" 1599800000 1568177579 (exRow 1599350400 "10")
        [exRow 1599523200 "20", exRow 1599782400 "50"] (fillFuel 1599800000 1599350400) =
      .done { timestamp := 1599782400, latestLiquidityUSD := .num "50", index := 3,
              data := [⟨1599350400, none, .num "7.5", .num "10"⟩,
                       ⟨1599523200, none, .num "7.5", .num "20"⟩,
                       ⟨1599782400, none, .num "7.5", .num "50"⟩,
                       ⟨1599436800, some 1599436800, .num "0", .num "10"⟩,
                       ⟨1599609600, some 1599609600, .num "0", .num "20"⟩,
                       ⟨1599696000, some 1599696000, .num "0", .num "20"⟩],
              reads := [1, 2] } := by
  decide

/-- C10 (as stated) fails: one snapshot dated `0`, the clock at 1970-12-31T06:00:00Z
(`31471200`), hence `startTime = -64801`. The first round finds the key `"0"` in the set
and reads `dayIndexArray[1]` of an array of length one; the loop throws. -/
theorem fillLoop_reads_out_of_bounds :
    runFill id "0" 31471200 (-64801) (exRow 0 "10") [] (fillFuel 31471200 (-64801)) =
      .threw { timestamp := -64801, latestLiquidityUSD := .num "10", index := 1,
               data := [{ date := 0, dayString := none, dailyVolumeUSD := .num "7.5",
                          reserveUSD := .num "10" }],
               reads := [1] } ∧
    ¬ (1 < [exRow 0 "10"].length) := by
  decide

/-- C7: when every page fetch succeeds, the returned series is sorted ascending by date,
in any arrival order of the snapshots. The run is one on a wall clock from 1971 on
(`startTime`, one year before the current time, is at least `-43200`, and the current time
is below `10 ^ 21`) and on dates that print without exponent (below `10 ^ 21` in
magnitude, as every date that the API can deliver is). -/
theorem getPairChartData_sorted {Num : Type} (parse : String → Num) (zero : Num)
    (query : Nat → Option (List (DayData Num))) (utcEndTime startTime : Int) (fuel : Nat)
    (fetched : List (DayData Num)) (skips : List Nat)
    (hfetch : fetchPages query fuel 0 [] [] = .done fetched skips)
    (hstart : -43200 ≤ startTime) (hend : utcEndTime < 10 ^ 21)
    (hrange : ∀ d ∈ fetched, d.date.natAbs < 10 ^ 21) :
    ∃ out, getPairChartData parse zero query utcEndTime startTime fuel = some out ∧
      out.Sorted (fun a b => a.date ≤ b.date) := by
  rw [getPairChartData_done parse zero query utcEndTime startTime fuel fetched skips hfetch]
  cases fetched with
  | nil => exact ⟨[], rfl, List.sorted_nil⟩
  | cons first rest =>
    obtain ⟨r, hrun, _⟩ := runFill_done parse zero utcEndTime startTime first rest
      (Or.inr hstart)
    have hdone := hrun _ (le_refl _)
    refine ⟨sortByDate r.data, ?_, ?_⟩
    · rw [fillAndSort_cons, hdone]
    · obtain ⟨fillers, hd, hf⟩ := fillLoop_data zero utcEndTime _ _ _ _ r hdone
      have hT : -(10 ^ 21 : Int) < firstTimestamp first startTime := by
        unfold firstTimestamp
        have h1 := hrange first (List.mem_cons_self _ _)
        split_ifs <;> omega
      have hmem : ∀ e ∈ sortByDate r.data, e.date.natAbs < 10 ^ 21 := by
        intro e he
        have he1 : e ∈ r.data := (sortByDate_perm r.data).mem_iff.1 he
        rw [hd] at he1
        rcases List.mem_append.1 he1 with h1 | h1
        · obtain ⟨d, hdm, rfl⟩ := List.mem_map.1 h1
          exact hrange d hdm
        · obtain ⟨_, _, hlt, k, hk1, hk2⟩ := hf e h1
          have hts : e.date = firstTimestamp first startTime + oneDay * (k : Int) := hk2
          have hk : oneDay * (k : Int) ≥ 0 := by simp only [oneDay]; omega
          omega
      refine List.Pairwise.imp_of_mem ?_ (sortByDate_sorted r.data)
      intro a b ha hb hab
      rw [parseInt_of_lt (hmem a ha), parseInt_of_lt (hmem b hb)] at hab
      exact hab

theorem getPairChartData_sorted_witness :
    (fetchPages (exQuery [exRow 1599350400 "10", exRow 1599782400 "50",
        exRow 1599523200 "20"]) 1 0 [] [] =
      .done [exRow 1599350400 "10", exRow 1599782400 "50", exRow 1599523200 "20"] [0] ∧
      (-43200 : Int) ≤ 1568246459) ∧
    ∃ out, getPairChartData id "0" (exQuery [exRow 1599350400 "10", exRow 1599782400 "50",
        exRow 1599523200 "20"]) 1599868900 1568246459 1 = some out ∧
      out.Sorted (fun a b => a.date ≤ b.date) :=
  ⟨by decide, getPairChartData_sorted id "0" _ 1599868900 1568246459 1
    [exRow 1599350400 "10", exRow 1599782400 "50", exRow 1599523200 "20"] [0] (by decide)
    (by decide) (by decide) (by decide)⟩

/-- Why the clock is taken from 1971 on: with the snapshots dated `0` and `432000`, the
clock at `31471200` (1970-12-31) and `startTime = -64801`, every fetch succeeds, the loop
throws at its sixth round and the `catch` returns `data` as it stands. -/
theorem getPairChartData_unsorted :
    getPairChartData id "0" (exQuery [exRow 0 "10", exRow 432000 "50"]) 31471200 (-64801) 1 =
      some [⟨0, none, .num "7.5", .num "10"⟩, ⟨432000, none, .num "7.5", .num "50"⟩,
            ⟨107999, some 107999, .num "0", .num "50"⟩,
            ⟨194399, some 194399, .num "0", .num "50"⟩,
            ⟨280799, some 280799, .num "0", .num "50"⟩,
            ⟨367199, some 367199, .num "0", .num "50"⟩] := by
  decide

/-- C9: when the page fetch returns no snapshot, the returned series is empty, whatever
the current time: nothing is synthesized. -/
theorem getPairChartData_empty {Num : Type} (parse : String → Num) (zero : Num)
    (query : Nat → Option (List (DayData Num))) (utcEndTime startTime : Int) (fuel : Nat)
    (h : query 0 = some []) :
    getPairChartData parse zero query utcEndTime startTime (fuel + 1) = some [] := by
  simp [getPairChartData, fetchPages, h, fillAndSort, sortByDate]

theorem getPairChartData_empty_witness :
    exQuery [] 0 = some [] ∧
    getPairChartData id "0" (exQuery []) 1600000000 1568377559 (0 + 1) = some [] :=
  ⟨by decide, getPairChartData_empty id "0" (exQuery []) 1600000000 1568377559 0 (by decide)⟩

theorem countP_key_eq_count {Num : Type} (l : List (DayData Num)) (c : DayKey) :
    l.countP (fun e => decide (dayIndex e.date = c)) =
      (l.map (fun d => dayIndex d.date)).count c := by
  induction l with
  | nil => rfl
  | cons a t ih =>
    rw [List.map_cons, List.countP_cons, List.count_cons, ih]
    by_cases h : dayIndex a.date = c <;> simp [h]

theorem map_parseRow_keys {Num : Type} (parse : String → Num) (l : List (DayData Num)) :
    (l.map (parseRow parse)).map (fun d => dayIndex d.date) =
      l.map (fun d => dayIndex d.date) := by
  rw [List.map_map]; rfl

/-- Counted by day key: with a first date that is not `0` and pairwise distinct day
keys, the series has exactly one entry under the key of each day step
`first.date + k * oneDay` before the current time, and every entry is a snapshot or is
stamped with such a day step. -/
theorem getPairChartData_count_by_key {Num : Type} (parse : String → Num) (zero : Num)
    (query : Nat → Option (List (DayData Num))) (utcEndTime startTime : Int) (fuel : Nat)
    (first : DayData Num) (rest : List (DayData Num)) (skips : List Nat)
    (hfetch : fetchPages query fuel 0 [] [] = .done (first :: rest) skips)
    (hfirst : first.date ≠ 0)
    (hdistinct : ((first :: rest).map (fun d => dayIndex d.date)).Nodup) :
    ∃ out, getPairChartData parse zero query utcEndTime startTime fuel = some out ∧
      (∀ k : Nat, first.date + oneDay * k < utcEndTime →
        out.countP (fun e => decide (dayIndex e.date = dayIndex (first.date + oneDay * k)))
          = 1) ∧
      ∀ e ∈ out, e ∈ (first :: rest).map (parseRow parse) ∨
        ∃ k : Nat, 1 ≤ k ∧ e.date = first.date + oneDay * k ∧ e.date < utcEndTime := by
  obtain ⟨r, hrun, _⟩ := runFill_done parse zero utcEndTime startTime first rest
    (Or.inl hfirst)
  have hT : firstTimestamp first startTime = first.date := by
    unfold firstTimestamp; rw [if_pos hfirst]
  have hdone := hrun _ (le_refl _)
  refine ⟨sortByDate r.data, ?_, ?_, ?_⟩
  · rw [getPairChartData_done parse zero query utcEndTime startTime fuel _ skips hfetch,
      fillAndSort_cons, hdone]
  · intro k hk
    rw [(sortByDate_perm r.data).countP_eq]
    have hcount := fillLoop_count zero utcEndTime _ _ (dayIndex (first.date + oneDay * k))
      _ _ r hdone
    have hts : (fillInit (parseRow parse first) ((first :: rest).map (parseRow parse))
        startTime).timestamp = first.date := hT
    have hdata : (fillInit (parseRow parse first) ((first :: rest).map (parseRow parse))
        startTime).data = (first :: rest).map (parseRow parse) := rfl
    rw [hts, hdata, countP_key_eq_count ((first :: rest).map (parseRow parse)),
      map_parseRow_keys] at hcount
    by_cases hmem : dayIndex (first.date + oneDay * k) ∈
        (first :: rest).map (fun d => dayIndex d.date)
    · rw [hcount.2 (fun hf => hf.1 hmem)]
      exact List.count_eq_one_of_mem hdistinct hmem
    · have hk1 : 1 ≤ k := by
        rcases Nat.eq_zero_or_pos k with h0 | h0
        · subst h0
          exact absurd (by simp) hmem
        · exact h0
      rw [hcount.1 ⟨hmem, k, hk1, hk, rfl⟩, List.count_eq_zero_of_not_mem hmem]
  · intro e he
    have he1 : e ∈ r.data := (sortByDate_perm r.data).mem_iff.1 he
    obtain ⟨fillers, hd, hf⟩ := fillLoop_data zero utcEndTime _ _ _ _ r hdone
    rw [hd] at he1
    rcases List.mem_append.1 he1 with h1 | h1
    · exact Or.inl h1
    · obtain ⟨_, _, hlt, k, hk1, hk2⟩ := hf e h1
      exact Or.inr ⟨k, hk1, by rw [hk2]; exact congrArg (· + oneDay * (k : Int)) hT, hlt⟩

theorem dayIndex_injective_on_boundaries {a b : Int} (ha : a % oneDay = 0)
    (hb : b % oneDay = 0) (h : dayIndex a = dayIndex b) : a = b := by
  have hr : dayRank a = dayRank b := by unfold dayRank; rw [h]
  rw [dayRank_eq, dayRank_eq] at hr
  simp only [oneDay] at ha hb
  split_ifs at hr <;> omega

/-- C1 (amended): the window starts at the day of the first-arrived snapshot, not one year
before now. For every non-empty list of fetched snapshots, in any arrival order, that are
dated on day boundaries, on pairwise distinct days, the first of them with a positive
date, the returned series has exactly one entry on each calendar day from the day of the
first snapshot to the last day that begins before the current time, and no entry besides
these and the snapshots themselves. -/
theorem getPairChartData_one_entry_per_day {Num : Type} (parse : String → Num) (zero : Num)
    (query : Nat → Option (List (DayData Num))) (utcEndTime startTime : Int) (fuel : Nat)
    (first : DayData Num) (rest : List (DayData Num)) (skips : List Nat)
    (hfetch : fetchPages query fuel 0 [] [] = .done (first :: rest) skips)
    (hpos : 0 < first.date)
    (hboundary : ∀ d ∈ first :: rest, d.date % oneDay = 0)
    (hdistinct : ((first :: rest).map (fun d => d.date / oneDay)).Nodup) :
    ∃ out, getPairChartData parse zero query utcEndTime startTime fuel = some out ∧
      (∀ day : Int, first.date / oneDay ≤ day → day ≤ (utcEndTime - 1) / oneDay →
        out.countP (fun e => decide (e.date / oneDay = day)) = 1) ∧
      ∀ e ∈ out, e ∈ (first :: rest).map (parseRow parse) ∨
        (first.date ≤ e.date ∧ e.date < utcEndTime) := by
  have hkeys : ((first :: rest).map (fun d => dayIndex d.date)).Nodup := by
    refine List.Nodup.map_on ?_ hdistinct.of_map
    intro x hx y hy hxy
    have hdate : x.date = y.date :=
      dayIndex_injective_on_boundaries (hboundary x hx) (hboundary y hy) hxy
    exact List.inj_on_of_nodup_map hdistinct hx hy (by simp only [hdate])
  obtain ⟨out, hout, hcount, hmem⟩ := getPairChartData_count_by_key parse zero query
    utcEndTime startTime fuel first rest skips hfetch (by omega) hkeys
  have hfirst := hboundary first (List.mem_cons_self _ _)
  have haligned : ∀ e ∈ out, e.date % oneDay = 0 := by
    intro e he
    rcases hmem e he with h1 | ⟨k, _, hk, _⟩
    · obtain ⟨d, hd, rfl⟩ := List.mem_map.1 h1
      exact hboundary d hd
    · rw [hk]
      simp only [oneDay] at hfirst ⊢
      omega
  refine ⟨out, hout, ?_, ?_⟩
  · intro day hlow hhigh
    have hstep : first.date + oneDay * ((day - first.date / oneDay).toNat : Int) =
        day * oneDay := by
      simp only [oneDay] at hfirst hlow ⊢
      omega
    have hlt : first.date + oneDay * ((day - first.date / oneDay).toNat : Int) <
        utcEndTime := by
      rw [hstep]
      simp only [oneDay] at hhigh ⊢
      omega
    rw [← hcount _ hlt]
    apply List.countP_congr
    intro e he
    have hal := haligned e he
    simp only [decide_eq_true_eq]
    rw [hstep]
    constructor
    · intro hday
      have : e.date = day * oneDay := by
        simp only [oneDay] at hal hday ⊢
        omega
      rw [this]
    · intro hkey
      have : e.date = day * oneDay :=
        dayIndex_injective_on_boundaries hal (by simp only [oneDay]; omega) hkey
      rw [this]
      simp only [oneDay]
      omega
  · intro e he
    rcases hmem e he with h1 | ⟨k, _, hk, hlt⟩
    · exact Or.inl h1
    · refine Or.inr ⟨?_, hlt⟩
      rw [hk]
      have : oneDay * (k : Int) ≥ 0 := by simp only [oneDay]; omega
      omega

theorem getPairChartData_one_entry_per_day_witness :
    (fetchPages (exQuery exDays025) 1 0 [] [] = .done (exRow 1599350400 "10" ::
        [exRow 1599523200 "20", exRow 1599782400 "50"]) [0] ∧
      (0 : Int) < (exRow 1599350400 "10").date) ∧
    ∃ out, getPairChartData id "0" (exQuery exDays025) 1599800000 1568177579 1 = some out ∧
      (∀ day : Int, (exRow 1599350400 "10").date / oneDay ≤ day →
        day ≤ (1599800000 - 1) / oneDay →
        out.countP (fun e => decide (e.date / oneDay = day)) = 1) ∧
      ∀ e ∈ out, e ∈ (exRow 1599350400 "10" ::
          [exRow 1599523200 "20", exRow 1599782400 "50"]).map (parseRow id) ∨
        ((exRow 1599350400 "10").date ≤ e.date ∧ e.date < 1599800000) :=
  ⟨by decide, getPairChartData_one_entry_per_day id "0" (exQuery exDays025) 1599800000
    1568177579 1 (exRow 1599350400 "10") [exRow 1599523200 "20", exRow 1599782400 "50"] [0]
    (by decide) (by decide) (by decide) (by decide)⟩

/-- C1 (as stated) fails: one snapshot dated 2020-09-12, the clock at `1600000000`
(2020-09-13T12:26:40Z) and `startTime = 1568377559` one year earlier. The series has two
entries; the first day of the window has none. -/
theorem getPairChartData_window_not_filled :
    ∃ out, getPairChartData id "0" (exQuery [exRow 1599868800 "10"]) 1600000000 1568377559 1 =
        some out ∧ out.length = 2 ∧ ¬ OneEntryPerDay 1568377559 1600000000 out :=
  ⟨[⟨1599868800, none, .num "7.5", .num "10"⟩,
    ⟨1599955200, some 1599955200, .num "0", .num "10"⟩], by decide, rfl,
    fun h => absurd (h.1 18152 (by decide) (by decide)) (by decide)⟩

theorem rank_pairwise {Num : Type} (l : List (DayData Num))
    (hasc : l.Pairwise (fun a b => a.date < b.date))
    (hdistinct : (l.map (fun d => dayIndex d.date)).Nodup) :
    l.Pairwise (fun a b => dayRank a.date < dayRank b.date) := by
  have hne : l.Pairwise (fun a b => dayIndex a.date ≠ dayIndex b.date) := by
    unfold List.Nodup at hdistinct
    rwa [List.pairwise_map] at hdistinct
  refine (hasc.and hne).imp ?_
  intro a b hab
  have h1 := dayRank_mono (le_of_lt hab.1)
  have h2 : dayRank a.date ≠ dayRank b.date := fun h => hab.2 (keyRank_injective h)
  omega

/-- C2 (amended): for snapshots that arrive in ascending date order, at most one per day
key and the first with a positive date, every synthesized entry has volume zero and the
reserve of the snapshot with the greatest date before its own day. -/
theorem getPairChartData_carry_forward {Num : Type} (parse : String → Num) (zero : Num)
    (query : Nat → Option (List (DayData Num))) (utcEndTime startTime : Int) (fuel : Nat)
    (first : DayData Num) (rest : List (DayData Num)) (skips : List Nat)
    (hfetch : fetchPages query fuel 0 [] [] = .done (first :: rest) skips)
    (hpos : 0 < first.date)
    (hasc : (first :: rest).Pairwise (fun a b => a.date < b.date))
    (hdistinct : ((first :: rest).map (fun d => dayIndex d.date)).Nodup) :
    ∃ out fillers, getPairChartData parse zero query utcEndTime startTime fuel = some out ∧
      out.Perm ((first :: rest).map (parseRow parse) ++ fillers) ∧
      ∀ f ∈ fillers, CarriesForward zero ((first :: rest).map (parseRow parse)) f := by
  have hfirst : first.date ≠ 0 := by omega
  obtain ⟨r, hrun, _⟩ := runFill_done parse zero utcEndTime startTime first rest
    (Or.inl hfirst)
  have hT : firstTimestamp first startTime = first.date := by
    unfold firstTimestamp; rw [if_pos hfirst]
  have hdone := hrun _ (le_refl _)
  have hasc1 : ((first :: rest).map (parseRow parse)).Pairwise
      (fun a b => a.date < b.date) := by
    rw [List.pairwise_map]; exact hasc
  have hdistinct1 : (((first :: rest).map (parseRow parse)).map
      (fun d => dayIndex d.date)).Nodup := by
    rw [map_parseRow_keys]; exact hdistinct
  have hrank := rank_pairwise _ hasc1 hdistinct1
  have hrank1 := hrank
  rw [List.map_cons, List.pairwise_cons] at hrank1
  obtain ⟨fillers, hd, hf⟩ := fillLoop_ascending zero utcEndTime _ _ rfl hrank _
    (fillInit (parseRow parse first) ((first :: rest).map (parseRow parse)) startTime)
    (by show 0 ≤ firstTimestamp first startTime; rw [hT]; omega)
    ⟨parseRow parse first, by simp, rfl, by
      intro e he
      have : e = parseRow parse first := by simpa [fillInit] using he
      rw [this], by
      show dayRank first.date ≤ dayRank (firstTimestamp first startTime)
      rw [hT]⟩
    (by
      intro e he
      show dayRank (firstTimestamp first startTime) < dayRank e.date
      rw [hT]
      exact hrank1.1 e (by simpa [fillInit] using he))
    r hdone
  refine ⟨sortByDate r.data, fillers, ?_, ?_, ?_⟩
  · rw [getPairChartData_done parse zero query utcEndTime startTime fuel _ skips hfetch,
      fillAndSort_cons, hdone]
  · have hp := sortByDate_perm r.data
    have hd1 : r.data = (first :: rest).map (parseRow parse) ++ fillers := hd
    rw [← hd1]
    exact hp
  · intro f hfm
    obtain ⟨hvol, hkey, e, he, hlt, hmax, hres⟩ := hf f hfm
    refine ⟨hvol, e, he, ?_, ?_, hres⟩
    · by_contra hcon
      have := dayRank_mono (not_lt.1 hcon)
      omega
    · intro e1 he1 hlt1
      have h1 := dayRank_mono (le_of_lt hlt1)
      have h2 : dayRank e1.date ≠ dayRank f.date := by
        intro hcon
        exact hkey (List.mem_map.2 ⟨e1, he1, keyRank_injective hcon⟩)
      have h3 := hmax e1 he1 (by omega)
      by_contra hcon
      have h4 := dayRank_mono (le_of_lt (not_le.1 hcon))
      have h5 : dayIndex e.date = dayIndex e1.date := keyRank_injective (by
        show dayRank e.date = dayRank e1.date
        omega)
      have h6 : e = e1 := List.inj_on_of_nodup_map hdistinct1 he he1 h5
      rw [h6] at hcon
      omega

theorem getPairChartData_carry_forward_witness :
    (fetchPages (exQuery exDays025) 1 0 [] [] = .done (exRow 1599350400 "10" ::
        [exRow 1599523200 "20", exRow 1599782400 "50"]) [0] ∧
      (0 : Int) < (exRow 1599350400 "10").date) ∧
    ∃ out fillers, getPairChartData id "0" (exQuery exDays025) 1599800000 1568177579 1 =
          some out ∧
      out.Perm ((exRow 1599350400 "10" ::
        [exRow 1599523200 "20", exRow 1599782400 "50"]).map (parseRow id) ++ fillers) ∧
      ∀ f ∈ fillers, CarriesForward "0" ((exRow 1599350400 "10" ::
        [exRow 1599523200 "20", exRow 1599782400 "50"]).map (parseRow id)) f :=
  ⟨by decide, getPairChartData_carry_forward id "0" (exQuery exDays025) 1599800000 1568177579 1
    (exRow 1599350400 "10") [exRow 1599523200 "20", exRow 1599782400 "50"] [0] (by decide)
    (by decide) (by decide) (by decide)⟩

/-- Snapshots of the days 0, 2 and 5 of a window of six days: the series has six entries,
the days 1, 3 and 4 are synthesized with volume zero and carry the reserves 10, 20, 20. -/
theorem getPairChartData_days_0_2_5 :
    getPairChartData id "0" (exQuery exDays025) 1599800000 1568177579 1 =
      some [⟨1599350400, none, .num "7.5", .num "10"⟩,
            ⟨1599436800, some 1599436800, .num "0", .num "10"⟩,
            ⟨1599523200, none, .num "7.5", .num "20"⟩,
            ⟨1599609600, some 1599609600, .num "0", .num "20"⟩,
            ⟨1599696000, some 1599696000, .num "0", .num "20"⟩,
            ⟨1599782400, none, .num "7.5", .num "50"⟩] := by
  decide

/-- C2 (as stated) fails when the snapshots do not arrive in date order: snapshots of
2020-09-06, 2020-09-11 and 2020-09-08 in this order (reserves 10, 50, 20), the clock at
`1599868900`. The entry synthesized for 2020-09-09 carries 50, the reserve of the later
snapshot of 2020-09-11, while the nearest preceding snapshot (2020-09-08) has 20. -/
theorem getPairChartData_carries_wrong_reserve :
    ∃ out f, getPairChartData id "0"
        (exQuery [exRow 1599350400 "10", exRow 1599782400 "50", exRow 1599523200 "20"])
        1599868900 1568246459 1 = some out ∧
      f ∈ out ∧
      f ∉ [exRow 1599350400 "10", exRow 1599782400 "50", exRow 1599523200 "20"].map
        (parseRow id) ∧
      ¬ CarriesForward "0"
        ([exRow 1599350400 "10", exRow 1599782400 "50", exRow 1599523200 "20"].map
          (parseRow id)) f := by
  refine ⟨[⟨1599350400, none, .num "7.5", .num "10"⟩,
      ⟨1599436800, some 1599436800, .num "0", .num "10"⟩,
      ⟨1599523200, none, .num "7.5", .num "20"⟩,
      ⟨1599609600, some 1599609600, .num "0", .num "50"⟩,
      ⟨1599696000, some 1599696000, .num "0", .num "50"⟩,
      ⟨1599782400, none, .num "7.5", .num "50"⟩,
      ⟨1599868800, some 1599868800, .num "0", .num "20"⟩],
    ⟨1599609600, some 1599609600, .num "0", .num "50"⟩, by decide, by decide, by decide, ?_⟩
  unfold CarriesForward
  decide

theorem fetchPages_pages {Num : Type} (pages : Nat → List (DayData Num)) (k : Nat) :
    ∀ (fuel skip : Nat) (data : List (DayData Num)) (skips : List Nat),
    (∀ i < k, 1000 ≤ (pages (skip + 1000 * i)).length) →
    (pages (skip + 1000 * k)).length < 1000 →
    k < fuel →
    fetchPages (fun s => some (pages s)) fuel skip data skips =
      .done (data ++ (List.range (k + 1)).flatMap (fun i => pages (skip + 1000 * i)))
        (skips ++ (List.range (k + 1)).map (fun i => skip + 1000 * i)) := by
  induction k with
  | zero =>
    intro fuel skip data skips _ hshort hfuel
    obtain ⟨n, rfl⟩ : ∃ n, fuel = n + 1 := ⟨fuel - 1, by omega⟩
    simp only [Nat.mul_zero, Nat.add_zero] at hshort
    have hr : List.range 1 = [0] := rfl
    simp [fetchPages, hshort, hr]
  | succ k ih =>
    intro fuel skip data skips hbig hshort hfuel
    obtain ⟨n, rfl⟩ : ∃ n, fuel = n + 1 := ⟨fuel - 1, by omega⟩
    have h0 : ¬ (pages skip).length < 1000 := by
      have := hbig 0 (by omega)
      simp only [Nat.mul_zero, Nat.add_zero] at this
      omega
    have hrec := ih n (skip + 1000) (data ++ pages skip) (skips ++ [skip])
      (fun i hi => by
        have := hbig (i + 1) (by omega)
        rwa [show skip + 1000 * (i + 1) = skip + 1000 + 1000 * i by ring] at this)
      (by rwa [show skip + 1000 * (k + 1) = skip + 1000 + 1000 * k by ring] at hshort)
      (by omega)
    simp only [fetchPages, if_neg h0]
    rw [hrec, List.range_succ_eq_map (k + 1), List.flatMap_cons, List.map_cons,
      List.flatMap_map, List.map_map]
    simp only [Nat.mul_zero, Nat.add_zero, List.append_assoc, List.singleton_append]
    congr 2
    · congr 1
      apply List.flatMap_congr
      intro i _
      simp only [Function.comp, Nat.succ_eq_add_one]
      congr 1; ring
    · congr 1
      apply List.map_congr_left
      intro i _
      simp only [Function.comp, Nat.succ_eq_add_one]
      ring

/-- C8: for a page source whose first page with fewer than 1000 rows is page `k`, the
queries are issued with `skip = 0, 1000, ..., 1000 * k` and no other, and the data
collected before gap filling is the concatenation of the pages `0..k` in order. -/
theorem fetchPages_until_short_page {Num : Type} (pages : Nat → List (DayData Num))
    (k fuel : Nat)
    (hfull : ∀ i < k, 1000 ≤ (pages (1000 * i)).length)
    (hshort : (pages (1000 * k)).length < 1000)
    (hfuel : k < fuel) :
    fetchPages (fun skip => some (pages skip)) fuel 0 [] [] =
      .done ((List.range (k + 1)).flatMap (fun i => pages (1000 * i)))
        ((List.range (k + 1)).map (fun i => 1000 * i)) := by
  have h := fetchPages_pages pages k fuel 0 [] []
    (fun i hi => by simpa using hfull i hi) (by simpa using hshort) hfuel
  simpa using h

theorem exPages_first_full : ∀ i < 1, 1000 ≤ (exPages (1000 * i)).length := by
  intro i hi
  have h0 : i = 0 := by omega
  subst h0
  show 1000 ≤ (List.replicate 1000 (exRow 1599868800 "10")).length
  rw [List.length_replicate]

theorem fetchPages_until_short_page_witness :
    (∀ i < 1, 1000 ≤ (exPages (1000 * i)).length) ∧
    (exPages (1000 * 1)).length < 1000 ∧
    fetchPages (fun skip => some (exPages skip)) 2 0 [] [] =
      .done ((List.range (1 + 1)).flatMap (fun i => exPages (1000 * i)))
        ((List.range (1 + 1)).map (fun i => 1000 * i)) :=
  ⟨exPages_first_full, by decide,
    fetchPages_until_short_page exPages 1 2 exPages_first_full (by decide) (by decide)⟩

/-! ## `getHourlyRateData`: the open/close formatting -/

theorem formatLoop_take {Num : Type} (parse : String → Num) (values : List (RateSample Num))
    (n : Nat) (hn : n ≤ values.length - 1) :
    (List.range n).foldl (formatStep parse values) (some ([], [])) =
      some ((List.zipWith candle0 values values.tail).take n,
            (List.zipWith candle1 values values.tail).take n) := by
  induction n with
  | zero => simp
  | succ m ih =>
    have hm : m + 1 < values.length := by omega
    have hm0 : m < values.length := by omega
    have ht : m < values.tail.length := by rw [List.length_tail]; omega
    rw [List.range_succ, List.foldl_append, ih (by omega)]
    simp only [List.foldl_cons, List.foldl_nil, formatStep,
      List.getElem?_eq_getElem hm, List.getElem?_eq_getElem hm0, parseFloat]
    have hz0 : (List.zipWith candle0 values values.tail)[m]? =
        some (candle0 values[m] values[m + 1]) := by
      rw [List.getElem?_zipWith, List.getElem?_eq_getElem hm0, List.getElem?_eq_getElem ht]
      simp [List.getElem_tail]
    have hz1 : (List.zipWith candle1 values values.tail)[m]? =
        some (candle1 values[m] values[m + 1]) := by
      rw [List.getElem?_zipWith, List.getElem?_eq_getElem hm0, List.getElem?_eq_getElem ht]
      simp [List.getElem_tail]
    rw [List.take_succ, List.take_succ, hz0, hz1]
    rfl

theorem formatHourlyRates_eq {Num : Type} (parse : String → Num)
    (values : List (RateSample Num)) :
    formatHourlyRates parse values =
      (List.zipWith candle0 values values.tail, List.zipWith candle1 values values.tail) := by
  unfold formatHourlyRates
  rw [formatLoop_take parse values _ (le_refl _)]
  have h0 : (List.zipWith candle0 values values.tail).length ≤ values.length - 1 := by
    rw [List.length_zipWith, List.length_tail]; omega
  have h1 : (List.zipWith candle1 values values.tail).length ≤ values.length - 1 := by
    rw [List.length_zipWith, List.length_tail]; omega
  simp only [List.take_of_length_le h0, List.take_of_length_le h1]

/-- C3: for every sequence of `n` samples the result is two candle lists of `n - 1`
entries each (none when `n ≤ 1`); entry `i` has the timestamp of sample `i`, opens at the
rate of sample `i` and closes at the rate of sample `i + 1`. -/
theorem formatHourlyRates_candles {Num : Type} (parse : String → Num)
    (values : List (RateSample Num)) :
    (formatHourlyRates parse values).1.length = values.length - 1 ∧
    (formatHourlyRates parse values).2.length = values.length - 1 ∧
    (∀ (i : Nat) (h : i + 1 < values.length),
      (formatHourlyRates parse values).1[i]? =
          some { timestamp := values[i].timestamp, open_ := values[i].rate0,
                 close := values[i + 1].rate0 } ∧
      (formatHourlyRates parse values).2[i]? =
          some { timestamp := values[i].timestamp, open_ := values[i].rate1,
                 close := values[i + 1].rate1 }) ∧
    (values.length ≤ 1 → formatHourlyRates parse values = ([], [])) := by
  rw [formatHourlyRates_eq]
  refine ⟨?_, ?_, ?_, ?_⟩
  · simp only [List.length_zipWith, List.length_tail]; omega
  · simp only [List.length_zipWith, List.length_tail]; omega
  · intro i h
    have hi : i < values.length := by omega
    have ht : i < values.tail.length := by rw [List.length_tail]; omega
    constructor
    · simp only [List.getElem?_zipWith, List.getElem?_eq_getElem hi,
        List.getElem?_eq_getElem ht]
      simp [List.getElem_tail, candle0]
    · simp only [List.getElem?_zipWith, List.getElem?_eq_getElem hi,
        List.getElem?_eq_getElem ht]
      simp [List.getElem_tail, candle1]
  · intro h
    match values, h with
    | [], _ => rfl
    | [_], _ => rfl

/-- The samples `(t0, a), (t1, b), (t2, c)` give the candles `(t0, a, b), (t1, b, c)`. -/
theorem formatHourlyRates_three_samples :
    formatHourlyRates id [⟨"t0", "a", "x"⟩, ⟨"t1", "b", "y"⟩, ⟨"t2", "c", "z"⟩] =
      ([⟨"t0", "a", "b"⟩, ⟨"t1", "b", "c"⟩], [⟨"t0", "x", "y"⟩, ⟨"t1", "y", "z"⟩]) := by
  decide

/-! ## `parseData` and `getBulkPairData` -/

/-- C5: a pair record without a one-day historical record gets its entire lifetime
volume `parseFloat(volumeUSD)` as `oneDayVolumeUSD`, whatever the helpers return. -/
theorem parseData_young_pair {Num : Type} (h : Helpers Num) (data : PairRecord Num)
    (twoDayData oneWeekData : Option (PairRecord Num)) (ethPrice : Num) (oneDayBlock : Nat) :
    (parseData h data none twoDayData oneWeekData ethPrice oneDayBlock).oneDayVolumeUSD =
      some (h.parse data.volumeUSD) := by
  unfold parseData
  cases oneWeekData <;> simp [parseFloat] <;> split_ifs <;> rfl

theorem lookupPair_eq_none {Num : Type} (pairs : List (PairRecord Num)) (pairId : PairId) :
    lookupPair (some pairs) pairId = none ↔ ∀ p ∈ pairs, p.id ≠ pairId := by
  simp only [lookupPair, List.getLast?_eq_none_iff, List.filter_eq_nil_iff,
    decide_eq_true_eq]

theorem pairHistory_queries {Num : Type} (client : Client Num) (site : Lookback) (block : Nat)
    (batch : Option (List (PairRecord Num))) (pairId : PairId) (q : PairQuery) :
    q ∈ (pairHistory client site block batch pairId).1 ↔
      q = { pairId := pairId, block := block, site := site } ∧
        lookupPair batch pairId = none := by
  unfold pairHistory
  cases hl : lookupPair batch pairId <;> simp

theorem pairHistory_rejected {Num : Type} (client : Client Num) (site : Lookback) (block : Nat)
    (batch : Option (List (PairRecord Num))) (pairId : PairId) (q : PairQuery)
    (hq : q ∈ (pairHistory client site block batch pairId).1)
    (hr : client.pairData q.pairId q.block = .rejected) :
    (pairHistory client site block batch pairId).2 = none := by
  unfold pairHistory at hq ⊢
  cases hl : lookupPair batch pairId with
  | some history => rw [hl] at hq; simp at hq
  | none =>
    rw [hl] at hq
    simp only [List.mem_singleton] at hq
    subst hq
    simp only at hr ⊢
    rw [hr]

theorem enrichPair_queries {Num : Type} (h : Helpers Num) (client : Client Num)
    (oneDayData twoDayData oneWeekData : Option (List (PairRecord Num)))
    (b1 b2 bWeek : Nat) (ethPrice : Num) (pair : PairRecord Num) (q : PairQuery)
    (hsite : q.site = .oneDay) :
    q ∈ (enrichPair h client oneDayData twoDayData oneWeekData b1 b2 bWeek ethPrice pair).1 ↔
      q = { pairId := pair.id, block := b1, site := .oneDay } ∧
        lookupPair oneDayData pair.id = none := by
  have h2 : q ∉ (pairHistory client .twoDay b2 twoDayData pair.id).1 := by
    rw [pairHistory_queries]; rintro ⟨rfl, _⟩; cases hsite
  have h3 : q ∉ (pairHistory client .oneWeek bWeek oneWeekData pair.id).1 := by
    rw [pairHistory_queries]; rintro ⟨rfl, _⟩; cases hsite
  rw [← pairHistory_queries client .oneDay b1 oneDayData pair.id q]
  simp only [enrichPair]
  generalize pairHistory client .oneDay b1 oneDayData pair.id = p1
  generalize pairHistory client .twoDay b2 twoDayData pair.id = p2 at h2 ⊢
  generalize pairHistory client .oneWeek bWeek oneWeekData pair.id = p3 at h3 ⊢
  rcases p1 with ⟨q1, _ | d1⟩
  · rfl
  · rcases p2 with ⟨q2, _ | d2⟩
    · simpa using fun hq2 => absurd hq2 h2
    · rcases p3 with ⟨q3, _ | d3⟩
      · simp only [List.mem_append]
        exact ⟨fun hq => hq.elim (fun hq => hq.elim id (fun hq => absurd hq h2))
          (fun hq => absurd hq h3), fun hq => Or.inl (Or.inl hq)⟩
      · simp only [List.mem_append]
        exact ⟨fun hq => hq.elim (fun hq => hq.elim id (fun hq => absurd hq h2))
          (fun hq => absurd hq h3), fun hq => Or.inl (Or.inl hq)⟩

theorem enrichPair_rejected {Num : Type} (h : Helpers Num) (client : Client Num)
    (oneDayData twoDayData oneWeekData : Option (List (PairRecord Num)))
    (b1 b2 bWeek : Nat) (ethPrice : Num) (pair : PairRecord Num) (q : PairQuery)
    (hq : q ∈
      (enrichPair h client oneDayData twoDayData oneWeekData b1 b2 bWeek ethPrice pair).1)
    (hr : client.pairData q.pairId q.block = .rejected) :
    (enrichPair h client oneDayData twoDayData oneWeekData b1 b2 bWeek ethPrice pair).2 =
      none := by
  have r1 := pairHistory_rejected client .oneDay b1 oneDayData pair.id q
  have r2 := pairHistory_rejected client .twoDay b2 twoDayData pair.id q
  have r3 := pairHistory_rejected client .oneWeek bWeek oneWeekData pair.id q
  simp only [enrichPair] at hq ⊢
  generalize pairHistory client .oneDay b1 oneDayData pair.id = p1 at *
  generalize pairHistory client .twoDay b2 twoDayData pair.id = p2 at *
  generalize pairHistory client .oneWeek bWeek oneWeekData pair.id = p3 at *
  rcases p1 with ⟨q1, _ | d1⟩
  · rfl
  · rcases p2 with ⟨q2, _ | d2⟩
    · rfl
    · rcases p3 with ⟨q3, _ | d3⟩
      · rfl
      · simp only [List.mem_append] at hq
        rcases hq with (hq | hq) | hq
        · exact absurd (r1 hq hr) (by simp)
        · exact absurd (r2 hq hr) (by simp)
        · exact absurd (r3 hq hr) (by simp)

/-- When the blocks resolve and no bulk query is rejected, the call is the join of the
callbacks over the pairs of the current result. -/
theorem getBulkPairData_run {Num : Type} (h : Helpers Num) (client : Client Num)
    (timestamps : List Int) (pairList : List PairId) (ethPrice : Num)
    (b1 b2 bWeek : Nat) (more : List Nat) (current : List (PairRecord Num))
    (hblocks : client.getBlocksFromTimestamps timestamps = some (b1 :: b2 :: bWeek :: more))
    (hcurrent : client.pairsBulk pairList = .rows current)
    (h1 : client.pairsHistoricalBulk b1 pairList ≠ .rejected)
    (h2 : client.pairsHistoricalBulk b2 pairList ≠ .rejected)
    (hWeek : client.pairsHistoricalBulk bWeek pairList ≠ .rejected) :
    getBulkPairData h client timestamps pairList ethPrice =
      joinAll (current.map (enrichPair h client
        (historyData (client.pairsHistoricalBulk b1 pairList))
        (historyData (client.pairsHistoricalBulk b2 pairList))
        (historyData (client.pairsHistoricalBulk bWeek pairList)) b1 b2 bWeek ethPrice)) := by
  simp only [getBulkPairData, hblocks, hcurrent]

/-- C6 (amended): when the blocks are resolved and the current bulk query and the three
historical bulk queries are answered, the one-day fallback (line 106) issues
`PAIR_DATA(pair.id, b1)` for a pair of the current result if and only if no record of the
one-day batch result `oneDayBatch` has the id of the pair; it issues nothing for a pair of
the batch, and nothing for an id outside the current result. -/
theorem getBulkPairData_oneDay_fallback {Num : Type} (h : Helpers Num) (client : Client Num)
    (timestamps : List Int) (pairList : List PairId) (ethPrice : Num)
    (b1 b2 bWeek : Nat) (more : List Nat) (current oneDayBatch : List (PairRecord Num))
    (hblocks : client.getBlocksFromTimestamps timestamps = some (b1 :: b2 :: bWeek :: more))
    (hcurrent : client.pairsBulk pairList = .rows current)
    (h1 : client.pairsHistoricalBulk b1 pairList = .rows oneDayBatch)
    (h2 : client.pairsHistoricalBulk b2 pairList ≠ .rejected)
    (hWeek : client.pairsHistoricalBulk bWeek pairList ≠ .rejected)
    (q : PairQuery) (hsite : q.site = .oneDay) :
    q ∈ (getBulkPairData h client timestamps pairList ethPrice).queries ↔
      q.block = b1 ∧ (∃ pair ∈ current, pair.id = q.pairId) ∧
        ∀ p ∈ oneDayBatch, p.id ≠ q.pairId := by
  rw [getBulkPairData_run h client timestamps pairList ethPrice b1 b2 bWeek more current
    hblocks hcurrent (by rw [h1]; exact fun hr => by cases hr) h2 hWeek, h1]
  simp only [joinAll, List.mem_flatMap, List.mem_map, historyData]
  constructor
  · rintro ⟨run, ⟨pair, hpair, rfl⟩, hq⟩
    rw [enrichPair_queries _ _ _ _ _ _ _ _ _ _ _ hsite, lookupPair_eq_none] at hq
    obtain ⟨rfl, habs⟩ := hq
    exact ⟨rfl, ⟨pair, hpair, rfl⟩, habs⟩
  · rintro ⟨hb, ⟨pair, hpair, hid⟩, habs⟩
    refine ⟨_, ⟨pair, hpair, rfl⟩, ?_⟩
    rw [enrichPair_queries _ _ _ _ _ _ _ _ _ _ _ hsite, lookupPair_eq_none, hid]
    refine ⟨?_, habs⟩
    cases q with
    | mk qid qblock qsite =>
      simp only at hb hsite
      rw [hb, hsite]

theorem getBulkPairData_oneDay_fallback_witness :
    (exClient.getBlocksFromTimestamps [1, 2, 3] = some (100 :: 90 :: 50 :: []) ∧
      exClient.pairsBulk [⟨10⟩, ⟨11⟩] = .rows [exPair 10 "70", exPair 11 "80"] ∧
      exClient.pairsHistoricalBulk 100 [⟨10⟩, ⟨11⟩] = .rows [exPair 10 "60"] ∧
      (⟨⟨11⟩, 100, .oneDay⟩ : PairQuery).site = .oneDay) ∧
    ((⟨⟨11⟩, 100, .oneDay⟩ : PairQuery) ∈
        (getBulkPairData exHelpers exClient [1, 2, 3] [⟨10⟩, ⟨11⟩] "1000").queries ↔
      (⟨⟨11⟩, 100, .oneDay⟩ : PairQuery).block = 100 ∧
        (∃ pair ∈ [exPair 10 "70", exPair 11 "80"],
          pair.id = (⟨⟨11⟩, 100, .oneDay⟩ : PairQuery).pairId) ∧
        ∀ p ∈ [exPair 10 "60"], p.id ≠ (⟨⟨11⟩, 100, .oneDay⟩ : PairQuery).pairId) :=
  ⟨by decide, getBulkPairData_oneDay_fallback exHelpers exClient [1, 2, 3] [⟨10⟩, ⟨11⟩] "1000"
    100 90 50 [] [exPair 10 "70", exPair 11 "80"] [exPair 10 "60"] (by decide) (by decide)
    (by decide) (by decide) (by decide) ⟨⟨11⟩, 100, .oneDay⟩ (by decide)⟩

/-- The sample run: pair `10` is known to every batch and triggers no query; pair `11` is
absent from all three and triggers one query at each block. -/
theorem getBulkPairData_sample_queries :
    (getBulkPairData exHelpers exClient [1, 2, 3] [⟨10⟩, ⟨11⟩] "1000").queries =
      [⟨⟨11⟩, 100, .oneDay⟩, ⟨⟨11⟩, 90, .twoDay⟩, ⟨⟨11⟩, 50, .oneWeek⟩] := by
  decide

/-- C6 (as stated) fails when another bulk query fails: the one-day batch result has pair
`10` only, pair `11` of the current result is absent from it, but the two-day bulk query is
rejected, `Promise.all` throws into the `catch`, and no individual query is issued. -/
theorem getBulkPairData_no_fallback_after_failure :
    exClientTwoDayRejected.pairsBulk [⟨10⟩, ⟨11⟩] = .rows [exPair 10 "70", exPair 11 "80"] ∧
    exClientTwoDayRejected.pairsHistoricalBulk 100 [⟨10⟩, ⟨11⟩] = .rows [exPair 10 "60"] ∧
    (∀ p ∈ [exPair 10 "60"], p.id ≠ (⟨11⟩ : PairId)) ∧
    (getBulkPairData exHelpers exClientTwoDayRejected [1, 2, 3] [⟨10⟩, ⟨11⟩] "1000").queries =
      [] := by
  decide

/-- Inside the `try`: once the blocks are resolved, when the current bulk query, one of
the three historical bulk queries, or an individual query that the call issues is
rejected, the call is fulfilled with `undefined`: no error reaches the caller and no
partial result is delivered. -/
theorem getBulkPairData_failure_undefined {Num : Type} (h : Helpers Num) (client : Client Num)
    (timestamps : List Int) (pairList : List PairId) (ethPrice : Num)
    (b1 b2 bWeek : Nat) (more : List Nat)
    (hblocks : client.getBlocksFromTimestamps timestamps = some (b1 :: b2 :: bWeek :: more))
    (hfail : client.pairsBulk pairList = .rejected ∨
      (∃ b ∈ [b1, b2, bWeek], client.pairsHistoricalBulk b pairList = .rejected) ∨
      ∃ q ∈ (getBulkPairData h client timestamps pairList ethPrice).queries,
        client.pairData q.pairId q.block = .rejected) :
    (getBulkPairData h client timestamps pairList ethPrice).result = .undefined := by
  by_cases hc : client.pairsBulk pairList = .rejected
  · simp only [getBulkPairData, hblocks, hc]
  by_cases h1 : client.pairsHistoricalBulk b1 pairList = .rejected
  · simp only [getBulkPairData, hblocks, h1]
  by_cases h2 : client.pairsHistoricalBulk b2 pairList = .rejected
  · simp only [getBulkPairData, hblocks, h2]
  by_cases hW : client.pairsHistoricalBulk bWeek pairList = .rejected
  · simp only [getBulkPairData, hblocks, hW]
  cases hcur : client.pairsBulk pairList with
  | rejected => exact absurd hcur hc
  | noData => simp only [getBulkPairData, hblocks, hcur]
  | rows current =>
    have hrun := getBulkPairData_run h client timestamps pairList ethPrice b1 b2 bWeek more
      current hblocks hcur h1 h2 hW
    rcases hfail with hf | hf | hf
    · exact absurd hf hc
    · obtain ⟨b, hb, hrej⟩ := hf
      simp only [List.mem_cons, List.mem_singleton, List.not_mem_nil, or_false] at hb
      rcases hb with rfl | rfl | rfl
      · exact absurd hrej h1
      · exact absurd hrej h2
      · exact absurd hrej hW
    · rw [hrun] at hf ⊢
      obtain ⟨q, hq, hrej⟩ := hf
      simp only [joinAll, List.mem_flatMap, List.mem_map] at hq
      obtain ⟨run, ⟨pair, hpair, rfl⟩, hq⟩ := hq
      have hnone := enrichPair_rejected _ _ _ _ _ _ _ _ _ _ _ hq hrej
      have hall : (current.map (enrichPair h client
          (historyData (client.pairsHistoricalBulk b1 pairList))
          (historyData (client.pairsHistoricalBulk b2 pairList))
          (historyData (client.pairsHistoricalBulk bWeek pairList)) b1 b2 bWeek ethPrice)).all
          (fun run => run.2.isSome) = false := by
        rw [List.all_eq_false]
        exact ⟨_, List.mem_map.2 ⟨pair, hpair, rfl⟩, by rw [hnone]; simp⟩
      simp only [joinAll, hall]
      rfl

theorem getBulkPairData_failure_undefined_witness :
    (exClientRejecting.getBlocksFromTimestamps [1, 2, 3] = some (100 :: 90 :: 50 :: []) ∧
      (exClientRejecting.pairsBulk [⟨10⟩, ⟨11⟩] = .rejected ∨
        (∃ b ∈ [100, 90, 50], exClientRejecting.pairsHistoricalBulk b [⟨10⟩, ⟨11⟩] = .rejected) ∨
        ∃ q ∈ (getBulkPairData exHelpers exClientRejecting [1, 2, 3] [⟨10⟩, ⟨11⟩] "1000").queries,
          exClientRejecting.pairData q.pairId q.block = .rejected)) ∧
    (getBulkPairData exHelpers exClientRejecting [1, 2, 3] [⟨10⟩, ⟨11⟩] "1000").result =
      .undefined :=
  ⟨by decide, getBulkPairData_failure_undefined exHelpers exClientRejecting [1, 2, 3]
    [⟨10⟩, ⟨11⟩] "1000" 100 90 50 [] (by decide) (by decide)⟩

/-- C4, where the code departs from it: the block resolution is awaited on line 67, before
the `try` of line 69 (the sibling `getHourlyRateData` awaits it inside its `try`). When
`getBlocksFromTimestamps` is rejected, the promise of `getBulkPairData` is rejected too
instead of being fulfilled with `undefined`. -/
theorem getBulkPairData_blocks_failure_rejects :
    exClientNoBlocks.getBlocksFromTimestamps [1, 2, 3] = none ∧
    (getBulkPairData exHelpers exClientNoBlocks [1, 2, 3] [⟨10⟩, ⟨11⟩] "1000").result =
      .rejects ∧
    (getBulkPairData exHelpers exClientNoBlocks [1, 2, 3] [⟨10⟩, ⟨11⟩] "1000").result ≠
      .undefined := by
  decide

end PairData
